import Mathlib

/-!
# ChatRoomC: the chat server's registry, gate and relay (`server.c`)

A shallow embedding of the room / private-message / registration logic of
`server.c`.

Modelling conventions.

* A C string is the list of its bytes before the terminating NUL (`CStr`); a
  byte is a `Char`.  `strcmp(a, b) == 0` is equality, `strncmp(a, b, n) == 0`
  is equality of the first `n` bytes, `snprintf(buf, size, ...)` keeps the
  first `size - 1` bytes of the formatted text.
* The shared memory region `shared_data` together with the named semaphore
  `mutex_sem` is the record `Server`.  The write end of `message_pipe` is the
  list of `MessageData` datagrams written so far, oldest first.
* `sem_wait` on a semaphore whose value is `0` does not return: the calling
  process waits.  Functions that take the gate return an `Outcome`, which
  records whether the call returned, the process exited, or the process is
  waiting in `sem_wait` (with the shared state at that point).
* Writing past the end of a local buffer (`sscanf` with `%s` into
  `username`, the copy into `to_username`) is undefined behaviour: the piece
  concerned returns `Outcome.overflow` and nothing is said about what follows.
* `printf` logging and `close` are not part of the shared state and are left
  out.
* Several handler processes are modelled by `System`, `Event`, `step` and
  `run`: the shared state plus, for each slot, where its handler stands.
-/

namespace ChatRoomC

set_option maxRecDepth 100000

/-! ## Constants and data model -/

abbrev CStr := List Char

def MAX_CLIENTS : Nat := 50
def BUFFER_SIZE : Nat := 1024
def USERNAME_SIZE : Nat := 32
def ROOM_NAME_SIZE : Nat := 32

/-- A datagram on the relay channel: `struct MessageData`. -/
structure MessageData where
  target_socket : Int
  message : CStr
deriving DecidableEq, Repr

/-- One registry slot: `struct Client`. -/
structure Client where
  socket : Int
  username : CStr
  current_room : CStr
  is_active : Bool
  handler_pid : Int
deriving DecidableEq, Repr

/-- A slot as `init_shared_memory` leaves it: the anonymous mapping is
zero-filled (empty strings), then `is_active = false`, `socket = -1`,
`handler_pid = 0`. -/
instance : Inhabited Client := ⟨⟨-1, [], [], false, 0⟩⟩

/-- The state shared by all processes: `shared_data->clients`, the datagrams
written to `shared_data->message_pipe[1]`, and the value of `mutex_sem`. -/
structure Server where
  clients : List Client
  message_pipe : List MessageData
  mutex_sem : Nat
deriving DecidableEq, Repr

/-- Result of running a piece of a handler process. -/
inductive Outcome where
  /-- the call returned to its caller, the handler goes on -/
  | ok (s : Server)
  /-- the handler process has terminated (`exit`, or `handle_client` returned) -/
  | exited (s : Server)
  /-- the process waits in `sem_wait` on a semaphore of value `0` -/
  | blocked (s : Server)
  /-- a local buffer was written past its end: behaviour undefined -/
  | overflow
deriving DecidableEq, Repr

/-- Sequencing: continue with `k` only after a call that returned. -/
def Outcome.andThen (o : Outcome) (k : Server → Outcome) : Outcome :=
  match o with
  | .ok s => k s
  | .exited s => .exited s
  | .blocked s => .blocked s
  | .overflow => .overflow

/-- The shared state an outcome carries, when it has one. -/
def Outcome.state? : Outcome → Option Server
  | .ok s => some s
  | .exited s => some s
  | .blocked s => some s
  | .overflow => none

/-! ## C library pieces -/

/-- Text produced by `snprintf(buf, size, fmt, ...)`, given the fully
formatted text: at most `size - 1` bytes are stored. -/
def snprintf (size : Nat) (formatted : CStr) : CStr := formatted.take (size - 1)

/-- Bytes stored by `strncpy(dst, src, n)`, read back as a C string.  Exact
when `src` is shorter than `n` or the destination is terminated right after
(every call site of the server is of one of these two kinds for inputs that
fit the buffers). -/
def strncpy (src : CStr) (n : Nat) : CStr := src.take n

/-- Test `strncmp(a, b, n) == 0`. -/
def strncmp_eq (a b : CStr) (n : Nat) : Bool := a.take n == b.take n

/-- C `isspace` in the "C" locale. -/
def isspace (c : Char) : Bool :=
  c == ' ' || c == '\t' || c == '\n' || c == '\x0b' || c == '\x0c' || c == '\r'

/-- Conversion `sscanf(buffer, "JOIN:%s", username) == 1`: the literal prefix
must match, then `%s` skips white space and reads the non-white-space run;
`some token` when a token was stored. -/
def sscanf_JOIN (buffer : CStr) : Option CStr :=
  if buffer.take 5 = "JOIN:".toList then
    let token := ((buffer.drop 5).dropWhile isspace).takeWhile (fun c => !isspace c)
    if token = [] then none else some token
  else none

/-- Offset of the first `' '` found by `strchr(p, ' ')`, `none` for `NULL`. -/
def strchr_space : CStr → Option Nat
  | [] => none
  | c :: cs => if c = ' ' then some 0 else (strchr_space cs).map (· + 1)

/-! ## Gate -/

/-- Call `sem_wait(mutex_sem)`: `none` when the caller has to wait. -/
def sem_wait (s : Server) : Option Server :=
  if s.mutex_sem = 0 then none else some { s with mutex_sem := s.mutex_sem - 1 }

/-- Call `sem_post(mutex_sem)`. -/
def sem_post (s : Server) : Server := { s with mutex_sem := s.mutex_sem + 1 }

/-- Run `k` once the gate is taken; the process waits when it is not free. -/
def withGate (s : Server) (k : Server → Outcome) : Outcome :=
  match sem_wait s with
  | none => .blocked s
  | some s1 => k s1

/-! ## Registry access and relay -/

/-- Record `shared_data->clients[i]`. -/
def Server.client (s : Server) (i : Nat) : Client := s.clients.getD i default

/-- Assignment to fields of `shared_data->clients[i]`. -/
def Server.setClient (s : Server) (i : Nat) (f : Client → Client) : Server :=
  { s with clients := s.clients.set i (f (s.client i)) }

/-- Function `send_message_to_socket`: one datagram is written to the pipe
(the `write` is taken to succeed), its text cut to `BUFFER_SIZE - 1` bytes. -/
def send_message_to_socket (s : Server) (socket : Int) (message : CStr) : Server :=
  { s with message_pipe :=
      s.message_pipe ++ [⟨socket, strncpy message (BUFFER_SIZE - 1)⟩] }

/-- Loop `for (int i = lo; i < lo + n; i++) body(i)`. -/
def forClients (body : Nat → Server → Server) : Nat → Nat → Server → Server
  | 0, _, s => s
  | n + 1, i, s => forClients body n (i + 1) (body i s)

/-- Function `find_free_slot`, scanning slots `i .. i + n - 1`. -/
def find_free_slot_from (s : Server) : Nat → Nat → Option Nat
  | 0, _ => none
  | n + 1, i => if !(s.client i).is_active then some i else find_free_slot_from s n (i + 1)

/-- Function `find_free_slot`: first inactive slot, `none` for `-1`. -/
def find_free_slot (s : Server) : Option Nat := find_free_slot_from s MAX_CLIENTS 0

/-- Function `find_client_by_username`, scanning slots `i .. i + n - 1`. -/
def find_client_by_username_from (s : Server) (username : CStr) : Nat → Nat → Option Nat
  | 0, _ => none
  | n + 1, i =>
    if (s.client i).is_active && (s.client i).username == username then some i
    else find_client_by_username_from s username n (i + 1)

/-- Function `find_client_by_username`: first active slot with that name,
`none` for `-1`. -/
def find_client_by_username (s : Server) (username : CStr) : Option Nat :=
  find_client_by_username_from s username MAX_CLIENTS 0

/-! ## Room / messaging logic -/

/-- Function `broadcast_to_room`. -/
def broadcast_to_room (s : Server) (message room : CStr) (exclude_socket : Int) : Outcome :=
  withGate s fun s1 =>
    let s2 := forClients (fun i t =>
      if (t.client i).is_active && (t.client i).current_room == room
          && (t.client i).socket != exclude_socket then
        send_message_to_socket t (t.client i).socket message
      else t) MAX_CLIENTS 0 s1
    .ok (sem_post s2)

/-- Function `send_private_message`. -/
def send_private_message (s : Server) (from_username to_username message : CStr) : Outcome :=
  withGate s fun s1 =>
    match find_client_by_username s1 to_username with
    | none =>
      match find_client_by_username s1 from_username with
      | some from_index =>
        let error_msg := snprintf BUFFER_SIZE
          ("* Error: User '".toList ++ to_username ++ "' not found\n".toList)
        .ok (sem_post (send_message_to_socket s1 (s1.client from_index).socket error_msg))
      | none => .ok (sem_post s1)
    | some to_index =>
      let formatted_msg := snprintf BUFFER_SIZE
        ("[PM from ".toList ++ from_username ++ "]: ".toList ++ message ++ "\n".toList)
      let s2 := send_message_to_socket s1 (s1.client to_index).socket formatted_msg
      match find_client_by_username s2 from_username with
      | some from_index =>
        let formatted_msg := snprintf BUFFER_SIZE
          ("[PM to ".toList ++ to_username ++ "]: ".toList ++ message ++ "\n".toList)
        .ok (sem_post (send_message_to_socket s2 (s2.client from_index).socket formatted_msg))
      | none => .ok (sem_post s2)

/-- Function `join_room`. -/
def join_room (s : Server) (client_index : Nat) (new_room : CStr) : Outcome :=
  withGate s fun s1 =>
    let old_room := strncpy (s1.client client_index).current_room ROOM_NAME_SIZE
    let leave_msg := snprintf BUFFER_SIZE
      ("* ".toList ++ (s1.client client_index).username ++ " has left the room\n".toList)
    let s2 := forClients (fun i t =>
      if (t.client i).is_active && (t.client i).current_room == old_room
          && i != client_index then
        send_message_to_socket t (t.client i).socket leave_msg
      else t) MAX_CLIENTS 0 s1
    let s3 := s2.setClient client_index fun c =>
      { c with current_room := strncpy new_room ROOM_NAME_SIZE }
    let join_msg := snprintf BUFFER_SIZE
      ("* ".toList ++ (s3.client client_index).username ++ " has joined the room\n".toList)
    let confirm_msg := snprintf BUFFER_SIZE
      ("* You have joined room: ".toList ++ new_room ++ "\n".toList)
    let s4 := send_message_to_socket s3 (s3.client client_index).socket confirm_msg
    let s5 := forClients (fun i t =>
      if (t.client i).is_active && (t.client i).current_room == new_room
          && i != client_index then
        send_message_to_socket t (t.client i).socket join_msg
      else t) MAX_CLIENTS 0 s4
    .ok (sem_post s5)

/-- Function `handle_client_disconnect`: it takes the gate and, for an active
slot, calls `broadcast_to_room`, which takes the gate again. -/
def handle_client_disconnect (s : Server) (client_index : Nat) : Outcome :=
  withGate s fun s1 =>
    let o :=
      if (s1.client client_index).is_active then
        let leave_msg := snprintf BUFFER_SIZE
          ("* ".toList ++ (s1.client client_index).username ++ " has left the chat\n".toList)
        (broadcast_to_room s1 leave_msg (s1.client client_index).current_room (-1)).andThen
          fun s2 => .ok (s2.setClient client_index fun c => { c with is_active := false })
      else .ok s1
    o.andThen fun s3 => .exited (sem_post s3)

/-! ## Connection handler (`handle_client`), piece by piece -/

/-- Lines 302-315 of `handle_client`: claim a free slot for the accepted
socket.  Without a free slot the handler returns. -/
def handle_client_claim (s : Server) (client_socket : Int) (pid : Int) : Outcome :=
  withGate s fun s1 =>
    match find_free_slot s1 with
    | none => .exited (sem_post s1)
    | some client_index =>
      .ok (sem_post (s1.setClient client_index fun c =>
        { c with socket := client_socket, is_active := true, handler_pid := pid,
                 current_room := strncpy "general".toList ROOM_NAME_SIZE }))

/-- The welcome text of `handle_client`. -/
def welcome_text (username : CStr) : CStr :=
  "* Welcome to the chat, ".toList ++ username ++ ("!\n" ++
    "Available commands:\n" ++
    "  /join <room>  - Join a chat room\n" ++
    "  /pm <user> <message>  - Send a private message to a user\n" ++
    "  /exit  - Leave the chat\n" ++
    "You are currently in the 'general' room.\n").toList

/-- Lines 317-352 of `handle_client`: the first `recv`.  `received` is `none`
when `recv` returned no bytes, else the C string in `buffer`. -/
def handle_client_register (s : Server) (client_index : Nat) (client_socket : Int)
    (received : Option CStr) : Outcome :=
  match received with
  | none => .ok s
  | some buffer =>
    match sscanf_JOIN buffer with
    | none => .ok s
    | some username =>
      if USERNAME_SIZE ≤ username.length then .overflow
      else
        (withGate s fun s1 =>
          if (find_client_by_username s1 username).isSome then
            let error_msg := snprintf BUFFER_SIZE
              ("* Error: Username '".toList ++ username ++ "' is already taken\n".toList)
            let s2 := send_message_to_socket s1 client_socket error_msg
            .exited (sem_post (s2.setClient client_index fun c => { c with is_active := false }))
          else
            .ok (sem_post (s1.setClient client_index fun c =>
              { c with username := strncpy username USERNAME_SIZE }))).andThen fun s3 =>
        let welcome_msg := snprintf BUFFER_SIZE (welcome_text username)
        let s4 := send_message_to_socket s3 client_socket welcome_msg
        let join_msg := snprintf BUFFER_SIZE
          ("* ".toList ++ username ++ " has joined the chat\n".toList)
        broadcast_to_room s4 join_msg "general".toList (-1)

/-- Body of the `while` loop of `handle_client` (lines 355-387) for one
received C string `buffer`. -/
def handle_client_dispatch (s : Server) (client_index : Nat) (buffer : CStr) : Outcome :=
  if strncmp_eq buffer "/pm ".toList 4 then
    match strchr_space (buffer.drop 4) with
    | none => .ok s
    | some username_len =>
      if USERNAME_SIZE ≤ username_len then .overflow
      else
        let to_username := strncpy (buffer.drop 4) username_len
        let message := strncpy (buffer.drop (4 + username_len + 1)) (BUFFER_SIZE - 1)
        send_private_message s (s.client client_index).username to_username message
  else if strncmp_eq buffer "/join ".toList 6 then
    let room_name := strncpy (buffer.drop 6) (ROOM_NAME_SIZE - 1)
    join_room s client_index room_name
  else if strncmp_eq buffer "/exit".toList 5 then
    handle_client_disconnect
      (send_message_to_socket s (s.client client_index).socket "SERVER_EXIT_ACK\n".toList)
      client_index
  else
    let formatted_msg := snprintf BUFFER_SIZE
      ((s.client client_index).username ++ ": ".toList ++ buffer ++ "\n".toList)
    broadcast_to_room s formatted_msg (s.client client_index).current_room (-1)

/-- One turn of the `while` loop: `recv` returned `received` (`none` when it
returned no bytes, which leaves the loop for `handle_client_disconnect`). -/
def handle_client_turn (s : Server) (client_index : Nat) (received : Option CStr) : Outcome :=
  match received with
  | none => handle_client_disconnect s client_index
  | some buffer => handle_client_dispatch s client_index buffer

/-- Registry right after `init_shared_memory`. -/
def init_shared_memory : Server :=
  { clients := List.replicate MAX_CLIENTS default, message_pipe := [], mutex_sem := 1 }

/-! ## Handler processes sharing the registry -/

/-- What the handler process that owns a slot is doing. -/
inductive Phase where
  /-- no handler process owns the slot -/
  | idle
  /-- the slot is claimed and its handler waits in the first `recv` -/
  | registering (client_socket : Int)
  /-- the handler waits in the `recv` of its `while` loop -/
  | looping
  /-- the handler waits in `sem_wait` -/
  | stuck
deriving DecidableEq, Repr

/-- The shared state and, for each slot, the phase of its handler. -/
structure System where
  shared : Server
  phase : List Phase
deriving DecidableEq, Repr

/-- What can happen next: a connection is accepted and its handler runs the
claim step, or the `recv` a handler waits in returns. -/
inductive Event where
  | connect (client_socket : Int) (pid : Int)
  | first (slot : Nat) (received : Option CStr)
  | turn (slot : Nat) (received : Option CStr)
deriving DecidableEq, Repr

/-- Call `recv(client_socket, buffer, BUFFER_SIZE - 1, 0)` stores at most
`BUFFER_SIZE - 1` bytes. -/
def recv_fits (received : Option CStr) : Bool :=
  match received with
  | none => true
  | some buffer => buffer.length ≤ BUFFER_SIZE - 1

/-- Where the handler of `slot` is after a piece of `handle_client` ran. -/
def System.after (sys : System) (slot : Nat) (o : Outcome) : Option System :=
  match o with
  | .ok s => some ⟨s, sys.phase.set slot .looping⟩
  | .exited s => some ⟨s, sys.phase.set slot .idle⟩
  | .blocked s => some ⟨s, sys.phase.set slot .stuck⟩
  | .overflow => none

/-- One event, run to the next `recv`, `sem_wait` on a taken gate, or exit of
the handler concerned.  `none`: the event cannot happen in the state, or the
behaviour is undefined.  The registry is only written with the gate taken
and every piece leaves the gate as it found it unless it ends waiting, so
running the pieces one after the other reaches the same registries as any
finer interleaving of the handlers. -/
def step (sys : System) : Event → Option System
  | .connect client_socket pid =>
    match handle_client_claim sys.shared client_socket pid with
    | .ok s =>
      (find_free_slot sys.shared).map fun client_index =>
        ⟨s, sys.phase.set client_index (.registering client_socket)⟩
    | .exited s => some ⟨s, sys.phase⟩
    | .blocked s => some ⟨s, sys.phase⟩
    | .overflow => none
  | .first slot received =>
    match sys.phase.getD slot .idle with
    | .registering client_socket =>
      if recv_fits received then
        sys.after slot (handle_client_register sys.shared slot client_socket received)
      else none
    | _ => none
  | .turn slot received =>
    match sys.phase.getD slot .idle with
    | .looping =>
      if recv_fits received then
        sys.after slot (handle_client_turn sys.shared slot received)
      else none
    | _ => none

/-- Run a sequence of events. -/
def run (sys : System) : List Event → Option System
  | [] => some sys
  | e :: es => (step sys e).bind fun sys1 => run sys1 es

/-- The server after `init_shared_memory`, before any connection. -/
def boot : System := ⟨init_shared_memory, List.replicate MAX_CLIENTS .idle⟩

/-! ## Specification-side helpers and concrete registries -/

/-- Datagrams a relay loop writes for the slots of `l`, numbered from `i`. -/
def framesFrom (p : Nat → Client → Bool) (message : CStr) : List Client → Nat → List MessageData
  | [], _ => []
  | c :: cs, i =>
    (if p i c then [⟨c.socket, strncpy message (BUFFER_SIZE - 1)⟩] else [])
      ++ framesFrom p message cs (i + 1)

/-- A registry whose first slots are `cs`, the rest as after
`init_shared_memory`; gate free, pipe empty. -/
def registryOf (cs : List Client) : Server :=
  { clients := cs ++ List.replicate (MAX_CLIENTS - cs.length) default,
    message_pipe := [], mutex_sem := 1 }

def alice : Client := ⟨4, "alice".toList, "general".toList, true, 101⟩
def bob : Client := ⟨5, "bob".toList, "general".toList, true, 102⟩

/-- A registry outside those the server reaches: slot 0 is inactive and holds
the name `alice` (socket 4, room `sports`); bob is in slot 1. -/
def aliceLeft : Server :=
  registryOf [⟨4, "alice".toList, "sports".toList, false, 101⟩, bob]

/-- The registry `aliceLeft` after a new handler (socket 9, pid 103) has run
the claim step. -/
def aliceSlotClaimed : Server :=
  registryOf [⟨9, "alice".toList, "general".toList, true, 103⟩, bob]

/-- Two clients whose first line was not a `JOIN:` line: both slots are
active with the empty username. -/
def twoUnnamed : Server :=
  registryOf [⟨4, [], "general".toList, true, 101⟩, ⟨5, [], "general".toList, true, 102⟩]

/-- Alice and bob connect and register, then bob moves to room `sports`. -/
def aliceBobSession : List Event :=
  [.connect 4 101, .first 0 (some "JOIN:alice".toList),
   .connect 5 102, .first 1 (some "JOIN:bob".toList),
   .turn 1 (some "/join sports".toList)]

/-- Alice connects and registers, then a second connection claims slot 1. -/
def secondConnection : List Event :=
  [.connect 4 101, .first 0 (some "JOIN:alice".toList), .connect 5 102]

/-- No two distinct active slots hold the same non-empty username. -/
def UniqueNames (s : Server) : Prop :=
  ∀ i j, i ≠ j → (s.client i).is_active = true → (s.client j).is_active = true →
    (s.client i).username = (s.client j).username → (s.client i).username = []

/-- Every active record has a non-empty room. -/
def RoomsNonEmpty (s : Server) : Prop :=
  ∀ i, (s.client i).is_active = true → (s.client i).current_room ≠ []

/-- The event is a `/join ` line with nothing after the prefix. -/
def Event.bareJoin : Event → Bool
  | .turn _ (some buffer) => buffer == "/join ".toList
  | _ => false

/-- What holds of every state the system reaches: the table sizes, the gate
is a binary semaphore, a free slot holds the empty username, a slot whose
handler is still registering is active with the empty username and room
`general`, and names are unique. -/
def Inv (sys : System) : Prop :=
  sys.shared.clients.length = MAX_CLIENTS ∧ sys.phase.length = MAX_CLIENTS ∧
  sys.shared.mutex_sem ≤ 1 ∧
  (∀ i, (sys.shared.client i).is_active = false → (sys.shared.client i).username = []) ∧
  (∀ i k, sys.phase.getD i .idle = .registering k →
    (sys.shared.client i).is_active = true ∧ (sys.shared.client i).username = [] ∧
    (sys.shared.client i).current_room = "general".toList) ∧
  UniqueNames sys.shared

/-- A line of 1023 bytes, the most one `recv` of the handler returns. -/
def longLine : CStr := List.replicate 1023 'a'

/-- A `/pm` line whose recipient token has 32 bytes. -/
def longRecipient : CStr := "/pm ".toList ++ List.replicate 32 'a' ++ " hi".toList

/-- The formatted texts `handle_client` builds in answer to one received
line, branch by branch: the two private-message texts and the "not found"
error for `/pm <user> <text>`; the two room notices and the confirmation for
`/join <room>`; the acknowledgment and the "has left the chat" notice for
`/exit`; the chat relay text for any other line. -/
def response_texts (s : Server) (client_index : Nat) (buffer : CStr) : List CStr :=
  if strncmp_eq buffer "/pm ".toList 4 then
    match strchr_space (buffer.drop 4) with
    | none => []
    | some username_len =>
      ["[PM from ".toList ++ (s.client client_index).username ++ "]: ".toList
          ++ buffer.drop (4 + username_len + 1) ++ "\n".toList,
        "[PM to ".toList ++ (buffer.drop 4).take username_len ++ "]: ".toList
          ++ buffer.drop (4 + username_len + 1) ++ "\n".toList,
        "* Error: User '".toList ++ (buffer.drop 4).take username_len
          ++ "' not found\n".toList]
  else if strncmp_eq buffer "/join ".toList 6 then
    ["* ".toList ++ (s.client client_index).username ++ " has left the room\n".toList,
      "* You have joined room: ".toList ++ (buffer.drop 6).take (ROOM_NAME_SIZE - 1)
        ++ "\n".toList,
      "* ".toList ++ (s.client client_index).username ++ " has joined the room\n".toList]
  else if strncmp_eq buffer "/exit".toList 5 then
    ["SERVER_EXIT_ACK\n".toList,
      "* ".toList ++ (s.client client_index).username ++ " has left the chat\n".toList]
  else
    [(s.client client_index).username ++ ": ".toList ++ buffer ++ "\n".toList]

/-- The payload is what the relay stores of one of `texts`: its first
`BUFFER_SIZE - 1` bytes. -/
def CutOf (texts : List CStr) (m : MessageData) : Prop :=
  ∃ text ∈ texts, m.message = text.take (BUFFER_SIZE - 1)

/-- The outcome carries a state whose pipe is `p` followed by new frames,
each of which satisfies `P`. -/
def Emits (P : MessageData → Prop) (p : List MessageData) (o : Outcome) : Prop :=
  ∃ s' new, o.state? = some s' ∧ s'.message_pipe = p ++ new ∧ ∀ m ∈ new, P m

/-! ## Lemmas on the slot loops -/

theorem getD_of_drop_nil {α : Type} (d : α) :
    ∀ (l : List α) (i : Nat), l.drop i = [] → l.getD i d = d
  | [], _, _ => by simp
  | _ :: _, 0, h => by simp at h
  | _ :: cs, i + 1, h => by
    simpa using getD_of_drop_nil d cs i (by simpa using h)

theorem getD_of_drop_cons {α : Type} (d : α) (c : α) (cs : List α) :
    ∀ (l : List α) (i : Nat), l.drop i = c :: cs → l.getD i d = c ∧ l.drop (i + 1) = cs
  | [], _, h => by simp at h
  | x :: xs, 0, h => by
    simp only [List.drop_zero, List.cons.injEq] at h
    simp [h.1, h.2]
  | _ :: xs, i + 1, h => by
    simpa using getD_of_drop_cons d c cs xs i (by simpa using h)

theorem forClients_relay (p : Nat → Client → Bool) (message : CStr)
    (hp : ∀ i, p i default = false) :
    ∀ (n i : Nat) (s : Server),
      forClients (fun i t =>
        if p i (t.client i) then send_message_to_socket t (t.client i).socket message else t)
        n i s
      = { s with message_pipe :=
            s.message_pipe ++ framesFrom p message ((s.clients.drop i).take n) i }
  | 0, i, s => by simp [forClients, framesFrom]
  | n + 1, i, s => by
    rw [forClients, forClients_relay p message hp n (i + 1)]
    cases hd : s.clients.drop i with
    | nil =>
      have h1 : s.client i = default := getD_of_drop_nil default s.clients i hd
      have h2 : s.clients.drop (i + 1) = [] := by
        rw [List.drop_eq_nil_iff] at hd ⊢
        omega
      simp [h1, hp, h2, framesFrom]
    | cons c cs =>
      obtain ⟨h1, h2⟩ := getD_of_drop_cons default c cs s.clients i hd
      have h1' : s.client i = c := h1
      by_cases hc : p i c = true
      · simp [h1', hc, send_message_to_socket, h2, framesFrom, List.take_succ_cons]
      · simp [h1', hc, h2, framesFrom, List.take_succ_cons]

theorem framesFrom_enum (p : Nat → Client → Bool) (message : CStr) :
    ∀ (l : List Client) (i : Nat),
      framesFrom p message l i =
        ((l.enumFrom i).filter (fun jc => p jc.1 jc.2)).map
          (fun jc => ⟨jc.2.socket, strncpy message (BUFFER_SIZE - 1)⟩)
  | [], _ => by simp [framesFrom]
  | c :: cs, i => by
    by_cases hc : p i c = true <;>
      simp [framesFrom, List.enumFrom, hc, framesFrom_enum p message cs (i + 1)]

theorem framesFrom_filter (q : Client → Bool) (message : CStr) :
    ∀ (l : List Client) (i : Nat),
      framesFrom (fun _ c => q c) message l i =
        (l.filter q).map (fun c => ⟨c.socket, strncpy message (BUFFER_SIZE - 1)⟩)
  | [], _ => by simp [framesFrom]
  | c :: cs, i => by
    by_cases hc : q c = true <;>
      simp [framesFrom, hc, framesFrom_filter q message cs (i + 1)]

theorem framesFrom_set (p : Nat → Client → Bool) (message : CStr) (x : Client) :
    ∀ (l : List Client) (k i : Nat), (∀ c, p (k + i) c = false) →
      framesFrom p message (l.set i x) k = framesFrom p message l k
  | [], _, _, _ => by simp [framesFrom]
  | c :: cs, k, 0, h => by
    have h0 : ∀ c, p k c = false := by simpa using h
    simp [framesFrom, h0]
  | c :: cs, k, i + 1, h => by
    have h1 : ∀ c, p (k + 1 + i) c = false := by
      intro c; have := h c; rwa [show k + (i + 1) = k + 1 + i by omega] at this
    simp [framesFrom, framesFrom_set p message x cs (k + 1) i h1]

theorem strncpy_of_le (m : CStr) (n : Nat) (h : m.length ≤ n) : strncpy m n = m := by
  simp [strncpy, List.take_of_length_le h]

theorem snprintf_of_lt (m : CStr) (n : Nat) (h : m.length < n) : snprintf n m = m := by
  simp only [snprintf]
  exact List.take_of_length_le (by omega)

theorem snprintf_length (m : CStr) (n : Nat) : (snprintf n m).length ≤ n - 1 := by
  simp [snprintf]

/-! ## The gate -/

theorem withGate_free (s : Server) (k : Server → Outcome) (h : 0 < s.mutex_sem) :
    withGate s k = k { s with mutex_sem := s.mutex_sem - 1 } := by
  simp [withGate, sem_wait, Nat.pos_iff_ne_zero.mp h]

theorem withGate_held (s : Server) (k : Server → Outcome) (h : s.mutex_sem = 0) :
    withGate s k = .blocked s := by
  simp [withGate, sem_wait, h]

/-! ## `broadcast_to_room` -/

theorem broadcast_to_room_free (s : Server) (message room : CStr) (exclude_socket : Int)
    (hlen : s.clients.length = MAX_CLIENTS) (hgate : 0 < s.mutex_sem) :
    broadcast_to_room s message room exclude_socket =
      .ok { s with
        message_pipe := s.message_pipe ++
          (s.clients.filter (fun c =>
              c.is_active && c.current_room == room && c.socket != exclude_socket)).map
            (fun c => ⟨c.socket, strncpy message (BUFFER_SIZE - 1)⟩) } := by
  have h := forClients_relay
    (fun _ c => c.is_active && c.current_room == room && c.socket != exclude_socket)
    message (by intro i; rfl) MAX_CLIENTS 0 { s with mutex_sem := s.mutex_sem - 1 }
  simp only [List.drop_zero] at h
  rw [← hlen, List.take_length, framesFrom_filter] at h
  rw [broadcast_to_room, withGate_free s _ hgate]
  simp only [← hlen] at h ⊢
  rw [h]
  simp only [sem_post, Outcome.ok.injEq, Server.mk.injEq, true_and]
  omega


/-- C2: with the gate free and a message that fits a `BUFFER_SIZE` buffer,
`broadcast_to_room` returns having enqueued, in slot order, exactly one frame
`(socket, message)` for each active slot whose room equals `room` and whose
socket differs from `exclude_socket`; nothing else in the shared state
changes, and no enqueued frame targets `exclude_socket`. -/
theorem broadcast_to_room_enqueues (s : Server) (message room : CStr) (exclude_socket : Int)
    (hlen : s.clients.length = MAX_CLIENTS) (hgate : 0 < s.mutex_sem)
    (hmsg : message.length ≤ BUFFER_SIZE - 1) :
    broadcast_to_room s message room exclude_socket =
      .ok { s with
        message_pipe := s.message_pipe ++
          (s.clients.filter (fun c =>
              c.is_active && c.current_room == room && c.socket != exclude_socket)).map
            (fun c => ⟨c.socket, message⟩) } ∧
    ∀ m ∈ (s.clients.filter (fun c =>
              c.is_active && c.current_room == room && c.socket != exclude_socket)).map
            (fun c => (⟨c.socket, message⟩ : MessageData)),
      m.target_socket ≠ exclude_socket := by
  refine ⟨?_, ?_⟩
  · rw [broadcast_to_room_free s message room exclude_socket hlen hgate,
      strncpy_of_le message _ hmsg]
  · intro m hm
    simp only [List.mem_map, List.mem_filter] at hm
    obtain ⟨c, ⟨_, hc⟩, rfl⟩ := hm
    simp only [Bool.and_eq_true, bne_iff_ne, ne_eq] at hc
    exact hc.2

theorem broadcast_to_room_enqueues_witness :
    (registryOf [alice, bob]).clients.length = MAX_CLIENTS ∧
    0 < (registryOf [alice, bob]).mutex_sem ∧
    "* carol has joined the chat\n".toList.length ≤ BUFFER_SIZE - 1 ∧
    broadcast_to_room (registryOf [alice, bob]) "* carol has joined the chat\n".toList
        "general".toList 4 =
      .ok { registryOf [alice, bob] with
        message_pipe := [⟨5, "* carol has joined the chat\n".toList⟩] } :=
  ⟨by decide, by decide, by decide,
    (broadcast_to_room_enqueues (registryOf [alice, bob])
      "* carol has joined the chat\n".toList "general".toList 4
      (by decide) (by decide) (by decide)).1.trans (by decide)⟩

/-! ## Chat relay -/

/-- C1, as the code has it: with the gate free, a line `t` that starts with
none of `/pm `, `/join `, `/exit` makes the handler of slot `i` enqueue exactly
one frame, carrying the first `BUFFER_SIZE - 1` bytes of `"u: t\n"`, for each
active record whose room is the sender's room and whose socket is not `-1`,
in slot order; the sender's own record is one of them. -/
theorem chat_relay_reaches_sender (s : Server) (i : Nat) (t : CStr)
    (hlen : s.clients.length = MAX_CLIENTS) (hgate : 0 < s.mutex_sem)
    (hi : i < MAX_CLIENTS) (hact : (s.client i).is_active = true)
    (hsock : (s.client i).socket ≠ -1)
    (hpm : t.take 4 ≠ "/pm ".toList) (hjoin : t.take 6 ≠ "/join ".toList)
    (hexit : t.take 5 ≠ "/exit".toList) :
    handle_client_dispatch s i t =
      .ok { s with
        message_pipe := s.message_pipe ++
          (s.clients.filter (fun c =>
              c.is_active && c.current_room == (s.client i).current_room && c.socket != -1)).map
            (fun c => ⟨c.socket,
              ((s.client i).username ++ ": ".toList ++ t ++ "\n".toList).take
                (BUFFER_SIZE - 1)⟩) } ∧
    (⟨(s.client i).socket,
        ((s.client i).username ++ ": ".toList ++ t ++ "\n".toList).take (BUFFER_SIZE - 1)⟩ :
        MessageData) ∈
      (s.clients.filter (fun c =>
          c.is_active && c.current_room == (s.client i).current_room && c.socket != -1)).map
        (fun c => ⟨c.socket,
          ((s.client i).username ++ ": ".toList ++ t ++ "\n".toList).take
            (BUFFER_SIZE - 1)⟩) := by
  refine ⟨?_, ?_⟩
  · have h1 : strncmp_eq t "/pm ".toList 4 = false := by
      simpa [strncmp_eq] using hpm
    have h2 : strncmp_eq t "/join ".toList 6 = false := by
      simpa [strncmp_eq] using hjoin
    have h3 : strncmp_eq t "/exit".toList 5 = false := by
      simpa [strncmp_eq] using hexit
    rw [handle_client_dispatch]
    simp only [h1, h2, h3, Bool.false_eq_true, if_false]
    rw [broadcast_to_room_free s _ _ _ hlen hgate,
      strncpy_of_le _ _ (snprintf_length _ BUFFER_SIZE)]
    rfl
  · have hmem : s.client i ∈ s.clients := by
      have hlt : i < s.clients.length := by rw [hlen]; exact hi
      have : s.client i = s.clients[i] := by
        simp [Server.client, List.getD_eq_getElem?_getD, List.getElem?_eq_getElem hlt]
      rw [this]
      exact List.getElem_mem hlt
    refine List.mem_map.mpr ⟨s.client i, List.mem_filter.mpr ⟨hmem, ?_⟩, rfl⟩
    simp [hact, hsock]

theorem chat_relay_reaches_sender_witness :
    handle_client_dispatch (registryOf [alice, bob]) 0 "hi".toList =
      .ok { registryOf [alice, bob] with
        message_pipe := [⟨4, "alice: hi\n".toList⟩, ⟨5, "alice: hi\n".toList⟩] } :=
  (chat_relay_reaches_sender (registryOf [alice, bob]) 0 "hi".toList
    (by decide) (by decide) (by decide) (by decide) (by decide) (by decide) (by decide)
    (by decide)).1.trans (by decide)

/-- C1 fails as stated: alice (socket 4) and bob (socket 5) are in `general`
and alice sends `hi`; the frames enqueued are one for alice's own socket and
one for bob's, not the single frame for bob. -/
theorem chat_relay_self_exclusion_counterexample :
    (handle_client_dispatch (registryOf [alice, bob]) 0 "hi".toList).state?.map
        (fun s => s.message_pipe) =
      some [⟨4, "alice: hi\n".toList⟩, ⟨5, "alice: hi\n".toList⟩] ∧
    (handle_client_dispatch (registryOf [alice, bob]) 0 "hi".toList).state?.map
        (fun s => s.message_pipe) ≠
      some [⟨5, "alice: hi\n".toList⟩] := by
  decide

/-! ## `find_client_by_username` and `find_free_slot` -/

theorem find_client_by_username_from_none (s : Server) (u : CStr) :
    ∀ (n i : Nat), find_client_by_username_from s u n i = none ↔
      ∀ j, i ≤ j → j < i + n →
        ¬((s.client j).is_active = true ∧ (s.client j).username = u)
  | 0, i => by
    simp only [find_client_by_username_from, true_iff]
    intro j h1 h2; omega
  | n + 1, i => by
    rw [find_client_by_username_from]
    by_cases hc : (s.client i).is_active = true ∧ (s.client i).username = u
    · simp only [hc.1, hc.2, beq_self_eq_true, Bool.and_self, if_true]
      constructor
      · intro h; cases h
      · intro h; exact absurd hc (h i (Nat.le_refl i) (by omega))
    · have hc' : ((s.client i).is_active && (s.client i).username == u) = false := by
        simpa [Bool.and_eq_false_iff] using hc
      simp only [hc', Bool.false_eq_true, if_false]
      rw [find_client_by_username_from_none s u n (i + 1)]
      constructor
      · intro h j h1 h2
        by_cases hji : j = i
        · subst hji; exact hc
        · exact h j (by omega) (by omega)
      · intro h j h1 h2
        exact h j (by omega) (by omega)

theorem find_client_by_username_from_some (s : Server) (u : CStr) :
    ∀ (n i k : Nat), find_client_by_username_from s u n i = some k ↔
      (i ≤ k ∧ k < i + n ∧ (s.client k).is_active = true ∧ (s.client k).username = u ∧
        ∀ j, i ≤ j → j < k →
          ¬((s.client j).is_active = true ∧ (s.client j).username = u))
  | 0, i, k => by
    simp only [find_client_by_username_from]
    constructor
    · intro h; cases h
    · intro h; omega
  | n + 1, i, k => by
    rw [find_client_by_username_from]
    by_cases hc : (s.client i).is_active = true ∧ (s.client i).username = u
    · simp only [hc.1, hc.2, beq_self_eq_true, Bool.and_self, if_true, Option.some.injEq]
      constructor
      · intro h
        subst h
        exact ⟨Nat.le_refl _, by omega, hc.1, hc.2, fun j h1 h2 => by omega⟩
      · intro ⟨h1, _, _, _, h5⟩
        by_cases hik : i = k
        · exact hik
        · exact absurd hc (h5 i (Nat.le_refl i) (by omega))
    · have hc' : ((s.client i).is_active && (s.client i).username == u) = false := by
        simpa [Bool.and_eq_false_iff] using hc
      simp only [hc', Bool.false_eq_true, if_false]
      rw [find_client_by_username_from_some s u n (i + 1) k]
      constructor
      · intro ⟨h1, h2, h3, h4, h5⟩
        refine ⟨by omega, by omega, h3, h4, fun j hj1 hj2 => ?_⟩
        by_cases hji : j = i
        · subst hji; exact hc
        · exact h5 j (by omega) hj2
      · intro ⟨h1, h2, h3, h4, h5⟩
        have hne : i ≠ k := by
          intro hik; subst hik; exact hc ⟨h3, h4⟩
        exact ⟨by omega, by omega, h3, h4, fun j hj1 hj2 => h5 j (by omega) hj2⟩

theorem find_client_by_username_eq_none (s : Server) (u : CStr) :
    find_client_by_username s u = none ↔
      ∀ j, j < MAX_CLIENTS →
        ¬((s.client j).is_active = true ∧ (s.client j).username = u) := by
  rw [find_client_by_username, find_client_by_username_from_none]
  constructor
  · intro h j hj; exact h j (Nat.zero_le j) (by omega)
  · intro h j _ hj; exact h j (by omega)

theorem find_client_by_username_eq_some (s : Server) (u : CStr) (k : Nat) :
    find_client_by_username s u = some k ↔
      (k < MAX_CLIENTS ∧ (s.client k).is_active = true ∧ (s.client k).username = u ∧
        ∀ j, j < k → ¬((s.client j).is_active = true ∧ (s.client j).username = u)) := by
  rw [find_client_by_username, find_client_by_username_from_some]
  constructor
  · intro ⟨_, h2, h3, h4, h5⟩
    exact ⟨by omega, h3, h4, fun j hj => h5 j (Nat.zero_le j) hj⟩
  · intro ⟨h2, h3, h4, h5⟩
    exact ⟨Nat.zero_le k, by omega, h3, h4, fun j _ hj => h5 j hj⟩

theorem find_free_slot_from_some (s : Server) :
    ∀ (n i k : Nat), find_free_slot_from s n i = some k →
      i ≤ k ∧ k < i + n ∧ (s.client k).is_active = false
  | 0, i, k => by
    intro h; simp [find_free_slot_from] at h
  | n + 1, i, k => by
    rw [find_free_slot_from]
    by_cases hc : (s.client i).is_active = true
    · simp only [hc, Bool.not_true, Bool.false_eq_true, if_false]
      intro h
      obtain ⟨h1, h2, h3⟩ := find_free_slot_from_some s n (i + 1) k h
      exact ⟨by omega, by omega, h3⟩
    · have hc' : (s.client i).is_active = false := by simpa using hc
      simp only [hc', Bool.not_false, if_true, Option.some.injEq]
      intro h; subst h
      exact ⟨Nat.le_refl _, by omega, hc'⟩

theorem find_free_slot_some (s : Server) (k : Nat) (h : find_free_slot s = some k) :
    k < MAX_CLIENTS ∧ (s.client k).is_active = false := by
  obtain ⟨_, h2, h3⟩ := find_free_slot_from_some s MAX_CLIENTS 0 k h
  exact ⟨by omega, h3⟩

theorem find_client_by_username_from_congr (s t : Server) (u : CStr)
    (h : t.clients = s.clients) :
    ∀ (n i : Nat), find_client_by_username_from t u n i = find_client_by_username_from s u n i
  | 0, _ => rfl
  | n + 1, i => by
    simp only [find_client_by_username_from, Server.client, h,
      find_client_by_username_from_congr s t u h n (i + 1)]

theorem find_client_by_username_congr (s t : Server) (u : CStr)
    (h : t.clients = s.clients) :
    find_client_by_username t u = find_client_by_username s u :=
  find_client_by_username_from_congr s t u h MAX_CLIENTS 0

theorem find_free_slot_congr (s t : Server) (h : t.clients = s.clients) :
    find_free_slot t = find_free_slot s := by
  have key : ∀ (n i : Nat), find_free_slot_from t n i = find_free_slot_from s n i := by
    intro n
    induction n with
    | zero => intro i; rfl
    | succ n ih => intro i; simp only [find_free_slot_from, Server.client, h, ih (i + 1)]
  exact key MAX_CLIENTS 0

theorem find_client_by_username_send (s : Server) (socket : Int) (m u : CStr) :
    find_client_by_username (send_message_to_socket s socket m) u =
      find_client_by_username s u :=
  find_client_by_username_congr s _ u rfl

theorem find_client_by_username_gate (s : Server) (n : Nat) (u : CStr) :
    find_client_by_username
        { clients := s.clients, message_pipe := s.message_pipe, mutex_sem := n } u =
      find_client_by_username s u :=
  find_client_by_username_congr s _ u rfl

/-! ## `send_private_message` -/

theorem strncpy_snprintf (m : CStr) :
    strncpy (snprintf BUFFER_SIZE m) (BUFFER_SIZE - 1) = snprintf BUFFER_SIZE m :=
  strncpy_of_le _ _ (snprintf_length m BUFFER_SIZE)

/-- C3, as the code has it: with the gate free, let slot `iA` be the lowest
active slot whose username is `from_username`.  (i) When slot `iB` is the
lowest active slot whose username is `to_username`, `send_private_message`
enqueues exactly two frames: first the "PM from" text to the socket of `iB`,
then the "PM to" text to the socket of `iA`.  (ii) When no active slot has
username `to_username` it enqueues exactly the "not found" text to the
socket of `iA`.  Each text is cut to `BUFFER_SIZE - 1` bytes, and nothing but
the pipe changes. -/
theorem send_private_message_frames (s : Server) (from_username to_username message : CStr)
    (iA : Nat) (hgate : 0 < s.mutex_sem) (hA : iA < MAX_CLIENTS)
    (hAact : (s.client iA).is_active = true)
    (hAname : (s.client iA).username = from_username)
    (hAfirst : ∀ j, j < iA →
      ¬((s.client j).is_active = true ∧ (s.client j).username = from_username)) :
    (∀ iB, iB < MAX_CLIENTS → (s.client iB).is_active = true →
      (s.client iB).username = to_username →
      (∀ j, j < iB →
        ¬((s.client j).is_active = true ∧ (s.client j).username = to_username)) →
      send_private_message s from_username to_username message =
        .ok { s with
          message_pipe := s.message_pipe ++
            [⟨(s.client iB).socket,
                ("[PM from ".toList ++ from_username ++ "]: ".toList ++ message
                  ++ "\n".toList).take (BUFFER_SIZE - 1)⟩,
              ⟨(s.client iA).socket,
                ("[PM to ".toList ++ to_username ++ "]: ".toList ++ message
                  ++ "\n".toList).take (BUFFER_SIZE - 1)⟩] }) ∧
    ((∀ j, j < MAX_CLIENTS →
        ¬((s.client j).is_active = true ∧ (s.client j).username = to_username)) →
      send_private_message s from_username to_username message =
        .ok { s with
          message_pipe := s.message_pipe ++
            [⟨(s.client iA).socket,
                ("* Error: User '".toList ++ to_username ++ "' not found\n".toList).take
                  (BUFFER_SIZE - 1)⟩] }) := by
  have hfrom : find_client_by_username s from_username = some iA :=
    (find_client_by_username_eq_some s from_username iA).mpr ⟨hA, hAact, hAname, hAfirst⟩
  have hsem : s.mutex_sem - 1 + 1 = s.mutex_sem := by omega
  refine ⟨?_, ?_⟩
  · intro iB hB hBact hBname hBfirst
    have hto : find_client_by_username s to_username = some iB :=
      (find_client_by_username_eq_some s to_username iB).mpr ⟨hB, hBact, hBname, hBfirst⟩
    rw [send_private_message, withGate_free s _ hgate]
    simp only [find_client_by_username_send, find_client_by_username_gate, hto, hfrom]
    simp only [send_message_to_socket, sem_post, strncpy_snprintf, Server.client, hsem]
    simp [snprintf]
  · intro hnone
    have hto : find_client_by_username s to_username = none :=
      (find_client_by_username_eq_none s to_username).mpr hnone
    rw [send_private_message, withGate_free s _ hgate]
    simp only [find_client_by_username_send, find_client_by_username_gate, hto, hfrom]
    simp only [send_message_to_socket, sem_post, strncpy_snprintf, Server.client, hsem]
    simp [snprintf]

theorem send_private_message_frames_witness :
    send_private_message (registryOf [alice, bob]) "alice".toList "bob".toList
        "hello".toList =
      .ok { registryOf [alice, bob] with
        message_pipe := [⟨5, "[PM from alice]: hello\n".toList⟩,
          ⟨4, "[PM to bob]: hello\n".toList⟩] } ∧
    send_private_message (registryOf [alice, bob]) "alice".toList "carol".toList
        "hello".toList =
      .ok { registryOf [alice, bob] with
        message_pipe := [⟨4, "* Error: User 'carol' not found\n".toList⟩] } :=
  ⟨((send_private_message_frames (registryOf [alice, bob]) "alice".toList "bob".toList
      "hello".toList 0 (by decide) (by decide) (by decide) (by decide)
      (by intro j hj; omega)).1 1 (by decide) (by decide) (by decide)
      (by intro j hj; have : j = 0 := by omega
          subst this; decide)).trans (by decide),
    by decide⟩

/-- C3 fails as stated: two active records share the (empty) username, the
second one has socket 5, and a private message from that username to an
unknown user puts its single error frame on socket 4. -/
theorem send_private_message_counterexample :
    (twoUnnamed.client 1).is_active = true ∧ (twoUnnamed.client 1).username = [] ∧
    (twoUnnamed.client 1).socket = 5 ∧
    (∀ c ∈ twoUnnamed.clients, ¬(c.is_active = true ∧ c.username = "nobody".toList)) ∧
    send_private_message twoUnnamed [] "nobody".toList "hi".toList =
      .ok { twoUnnamed with
        message_pipe := [⟨4, "* Error: User 'nobody' not found\n".toList⟩] } := by
  decide

/-! ## Slot reads after slot writes -/

theorem client_set_self (l : List Client) (i : Nat) (x : Client) (h : i < l.length) :
    (l.set i x).getD i default = x := by
  simp [List.getD_eq_getElem?_getD, h]

theorem client_set_ne (l : List Client) (i j : Nat) (x : Client) (h : i ≠ j) :
    (l.set i x).getD j default = l.getD j default := by
  simp [List.getD_eq_getElem?_getD, List.getElem?_set_ne h]

theorem client_mem (s : Server) (i : Nat) (h : i < s.clients.length) :
    s.client i = s.clients[i] := by
  simp [Server.client, List.getD_eq_getElem?_getD, List.getElem?_eq_getElem h]

theorem client_gate (s : Server) (p : List MessageData) (n i : Nat) :
    ({ clients := s.clients, message_pipe := p, mutex_sem := n } : Server).client i =
      s.client i := rfl

theorem client_send (s : Server) (socket : Int) (m : CStr) (i : Nat) :
    (send_message_to_socket s socket m).client i = s.client i := rfl

theorem setClient_client_self (s : Server) (i : Nat) (f : Client → Client)
    (h : i < s.clients.length) : (s.setClient i f).client i = f (s.client i) :=
  client_set_self s.clients i _ h

theorem setClient_client_ne (s : Server) (i j : Nat) (f : Client → Client) (h : i ≠ j) :
    (s.setClient i f).client j = s.client j :=
  client_set_ne s.clients i j _ h

/-! ## `join_room` -/

theorem join_room_free (s : Server) (i : Nat) (new_room : CStr)
    (hlen : s.clients.length = MAX_CLIENTS) (hgate : 0 < s.mutex_sem) (hi : i < MAX_CLIENTS) :
    join_room s i new_room =
      .ok { clients := s.clients.set i
              { s.client i with current_room := strncpy new_room ROOM_NAME_SIZE },
            message_pipe := s.message_pipe ++
              framesFrom (fun j c => c.is_active
                  && c.current_room == strncpy (s.client i).current_room ROOM_NAME_SIZE
                  && j != i)
                (snprintf BUFFER_SIZE
                  ("* ".toList ++ (s.client i).username ++ " has left the room\n".toList))
                s.clients 0 ++
              [⟨(s.client i).socket, snprintf BUFFER_SIZE
                  ("* You have joined room: ".toList ++ new_room ++ "\n".toList)⟩] ++
              framesFrom (fun j c => c.is_active && c.current_room == new_room && j != i)
                (snprintf BUFFER_SIZE
                  ("* ".toList ++ (s.client i).username ++ " has joined the room\n".toList))
                s.clients 0,
            mutex_sem := s.mutex_sem } := by
  have hlt : i < s.clients.length := by rw [hlen]; exact hi
  have hsem : s.mutex_sem - 1 + 1 = s.mutex_sem := by omega
  rw [join_room, withGate_free s _ hgate]
  have h1 := fun (msg : CStr) (t : Server) => forClients_relay
    (fun j c => c.is_active
      && c.current_room == strncpy (s.client i).current_room ROOM_NAME_SIZE && j != i)
    msg (by intro j; rfl) MAX_CLIENTS 0 t
  have h2 := fun (msg : CStr) (t : Server) => forClients_relay
    (fun j c => c.is_active && c.current_room == new_room && j != i)
    msg (by intro j; rfl) MAX_CLIENTS 0 t
  simp only [List.drop_zero] at h1 h2
  simp only [client_gate, h1]
  simp only [setClient_client_self, hlt, client_gate, h2]
  simp only [send_message_to_socket, Server.setClient, client_gate, sem_post, hsem,
    strncpy_snprintf, List.length_set, Outcome.ok.injEq,
    Server.mk.injEq, true_and, and_true, List.append_assoc, List.append_cancel_left_eq]
  have ht1 : List.take MAX_CLIENTS s.clients = s.clients :=
    List.take_of_length_le (by rw [hlen])
  have ht2 : ∀ x : Client, List.take MAX_CLIENTS (s.clients.set i x) = s.clients.set i x :=
    fun x => List.take_of_length_le (by rw [List.length_set, hlen])
  simp only [ht1, ht2]
  rw [framesFrom_set _ _ _ _ 0 i (by intro c; simp)]

/-- C8: with the gate free, a room name and stored strings that fit their
buffers, `join_room i R` returns having enqueued, in this order: the "left"
notice to each active slot `j ≠ i` in the old room (slot order), the
confirmation to the socket of slot `i`, the "joined" notice to each active
slot `j ≠ i` in room `R`.  When active slots have pairwise distinct sockets
and slot `i` is active, no notice targets the joining client's socket. -/
theorem join_room_notices (s : Server) (i : Nat) (R : CStr)
    (hlen : s.clients.length = MAX_CLIENTS) (hgate : 0 < s.mutex_sem) (hi : i < MAX_CLIENTS)
    (hact : (s.client i).is_active = true)
    (hR : R.length ≤ ROOM_NAME_SIZE - 1)
    (hu : (s.client i).username.length ≤ USERNAME_SIZE - 1)
    (hO : (s.client i).current_room.length ≤ ROOM_NAME_SIZE - 1) :
    ∃ s', join_room s i R = .ok s' ∧
      s'.message_pipe = s.message_pipe ++
        (s.clients.enum.filter (fun jc =>
            jc.2.is_active && jc.2.current_room == (s.client i).current_room && jc.1 != i)).map
          (fun jc => ⟨jc.2.socket,
            "* ".toList ++ (s.client i).username ++ " has left the room\n".toList⟩) ++
        [⟨(s.client i).socket, "* You have joined room: ".toList ++ R ++ "\n".toList⟩] ++
        (s.clients.enum.filter (fun jc =>
            jc.2.is_active && jc.2.current_room == R && jc.1 != i)).map
          (fun jc => ⟨jc.2.socket,
            "* ".toList ++ (s.client i).username ++ " has joined the room\n".toList⟩) ∧
      ((∀ j k, j < MAX_CLIENTS → k < MAX_CLIENTS → (s.client j).is_active = true →
          (s.client k).is_active = true → (s.client j).socket = (s.client k).socket → j = k) →
        ∀ (room : CStr) (text : CStr),
          ∀ m ∈ (s.clients.enum.filter (fun jc =>
              jc.2.is_active && jc.2.current_room == room && jc.1 != i)).map
            (fun jc => (⟨jc.2.socket, text⟩ : MessageData)),
          m.target_socket ≠ (s.client i).socket) := by
  have e1 : "* ".toList.length = 2 := by decide
  have e2 : " has left the room\n".toList.length = 19 := by decide
  have e3 : " has joined the room\n".toList.length = 21 := by decide
  have e4 : "* You have joined room: ".toList.length = 24 := by decide
  have e5 : "\n".toList.length = 1 := by decide
  simp only [USERNAME_SIZE, ROOM_NAME_SIZE] at hu hO hR
  refine ⟨_, join_room_free s i R hlen hgate hi, ?_, ?_⟩
  · simp only [framesFrom_enum, strncpy_snprintf]
    rw [strncpy_of_le _ _ (by simp only [ROOM_NAME_SIZE]; omega),
      snprintf_of_lt _ _ (by simp only [List.length_append, e1, e2, BUFFER_SIZE]; omega),
      snprintf_of_lt _ _ (by simp only [List.length_append, e1, e3, BUFFER_SIZE]; omega),
      snprintf_of_lt _ _ (by simp only [List.length_append, e4, e5, BUFFER_SIZE]; omega)]
    rfl
  · intro hdist room text m hm
    simp only [List.mem_map, List.mem_filter, Prod.exists] at hm
    obtain ⟨j, c, ⟨hjc, hp⟩, rfl⟩ := hm
    simp only [Bool.and_eq_true, bne_iff_ne, ne_eq] at hp
    obtain ⟨hj, hc⟩ := List.mem_enum hjc
    have hcj : s.client j = c := by rw [hc]; exact client_mem s j hj
    intro hsock
    apply hp.2
    apply hdist j i (by rw [← hlen]; exact hj) hi (by rw [hcj]; exact hp.1.1) hact
    rw [hcj]; exact hsock

theorem join_room_notices_witness :
    ∃ s', join_room (registryOf [alice, bob]) 1 "sports".toList = .ok s' ∧
      s'.message_pipe =
        [⟨4, "* bob has left the room\n".toList⟩,
          ⟨5, "* You have joined room: sports\n".toList⟩] := by
  obtain ⟨s', h1, h2, _⟩ := join_room_notices (registryOf [alice, bob]) 1 "sports".toList
    (by decide) (by decide) (by decide) (by decide) (by decide) (by decide) (by decide)
  exact ⟨s', h1, h2.trans (by decide)⟩

/-- C9: with the gate free and a room name `R` of at most 31 bytes,
`join_room i R` returns, the room of slot `i` is then `R`, the other fields
of slot `i` and every other slot are as before, and the gate is free again. -/
theorem join_room_registry (s : Server) (i : Nat) (R : CStr)
    (hlen : s.clients.length = MAX_CLIENTS) (hgate : 0 < s.mutex_sem) (hi : i < MAX_CLIENTS)
    (hR : R.length ≤ ROOM_NAME_SIZE - 1) :
    ∃ s', join_room s i R = .ok s' ∧
      (s'.client i).current_room = R ∧
      (s'.client i).socket = (s.client i).socket ∧
      (s'.client i).username = (s.client i).username ∧
      (s'.client i).is_active = (s.client i).is_active ∧
      (s'.client i).handler_pid = (s.client i).handler_pid ∧
      (∀ j, j ≠ i → s'.client j = s.client j) ∧
      s'.clients.length = s.clients.length ∧
      s'.mutex_sem = s.mutex_sem := by
  have hlt : i < s.clients.length := by rw [hlen]; exact hi
  refine ⟨_, join_room_free s i R hlen hgate hi, ?_⟩
  simp only [Server.client, client_set_self _ _ _ hlt, List.length_set, true_and, and_true]
  refine ⟨strncpy_of_le _ _ (by simp only [ROOM_NAME_SIZE] at hR ⊢; omega), ?_⟩
  intro j hj
  exact client_set_ne _ _ _ _ (Ne.symm hj)

theorem join_room_registry_witness :
    ∃ s', join_room (registryOf [alice, bob]) 1 "sports".toList = .ok s' ∧
      s'.clients = (registryOf [alice, ⟨5, "bob".toList, "sports".toList, true, 102⟩]).clients := by
  obtain ⟨s', h1, _⟩ := join_room_registry (registryOf [alice, bob]) 1 "sports".toList
    (by decide) (by decide) (by decide) (by decide)
  refine ⟨s', h1, ?_⟩
  have h2 : join_room (registryOf [alice, bob]) 1 "sports".toList =
      .ok { registryOf [alice, ⟨5, "bob".toList, "sports".toList, true, 102⟩] with
        message_pipe := [⟨4, "* bob has left the room\n".toList⟩,
          ⟨5, "* You have joined room: sports\n".toList⟩] } := by decide
  rw [h2] at h1
  cases h1
  rfl

/-! ## Exit and disconnect -/

/-- C5 fails on the code: alice (slot 0, socket 4) sends `/exit` with the
gate free.  The acknowledgment is enqueued, `handle_client_disconnect` takes
the gate and calls `broadcast_to_room`, whose own `sem_wait` finds the gate
taken: the handler waits there for ever, with no "has left the chat" notice
enqueued, the slot still active and the gate still taken. -/
theorem exit_blocks_in_disconnect :
    handle_client_dispatch (registryOf [alice, bob]) 0 "/exit".toList =
      .blocked { registryOf [alice, bob] with
        message_pipe := [⟨4, "SERVER_EXIT_ACK\n".toList⟩], mutex_sem := 0 } ∧
    ((registryOf [alice, bob]).client 0).is_active = true ∧
    (registryOf [alice, bob]).mutex_sem = 1 := by
  decide

/-! ## Slot claim and registration -/

/-- The claim step by itself writes the room but not the username: on the
registry `aliceLeft`, which the running server never reaches (see
`aliceLeft_unreachable`), the name `alice` stays in the claimed record. -/
theorem claim_keeps_old_username :
    (aliceLeft.client 0).is_active = false ∧
    handle_client_claim aliceLeft 9 103 = .ok aliceSlotClaimed ∧
    (aliceSlotClaimed.client 0).username = "alice".toList ∧
    (aliceSlotClaimed.client 0).username ≠ [] ∧
    (aliceSlotClaimed.client 0).current_room = "general".toList := by
  decide

/-! ## What each piece of a handler does to the registry and the gate -/

theorem broadcast_to_room_cases (s : Server) (message room : CStr) (exclude_socket : Int)
    (hlen : s.clients.length = MAX_CLIENTS) :
    (s.mutex_sem = 0 ∧ broadcast_to_room s message room exclude_socket = .blocked s) ∨
    (0 < s.mutex_sem ∧ ∃ p, broadcast_to_room s message room exclude_socket =
      .ok { s with message_pipe := p }) := by
  rcases Nat.eq_zero_or_pos s.mutex_sem with h | h
  · exact Or.inl ⟨h, withGate_held s _ h⟩
  · exact Or.inr ⟨h, _, broadcast_to_room_free s message room exclude_socket hlen h⟩

theorem send_private_message_cases (s : Server) (from_username to_username message : CStr) :
    (s.mutex_sem = 0 ∧
      send_private_message s from_username to_username message = .blocked s) ∨
    (0 < s.mutex_sem ∧ ∃ p, send_private_message s from_username to_username message =
      .ok { s with message_pipe := p }) := by
  rcases Nat.eq_zero_or_pos s.mutex_sem with h | h
  · exact Or.inl ⟨h, withGate_held s _ h⟩
  · refine Or.inr ⟨h, ?_⟩
    have hsem : s.mutex_sem - 1 + 1 = s.mutex_sem := by omega
    rw [send_private_message, withGate_free s _ h]
    simp only [find_client_by_username_send, find_client_by_username_gate]
    cases find_client_by_username s to_username <;>
      cases find_client_by_username s from_username <;>
      simp [send_message_to_socket, sem_post, hsem]

theorem join_room_cases (s : Server) (i : Nat) (new_room : CStr)
    (hlen : s.clients.length = MAX_CLIENTS) (hi : i < MAX_CLIENTS) :
    (s.mutex_sem = 0 ∧ join_room s i new_room = .blocked s) ∨
    (0 < s.mutex_sem ∧ ∃ p, join_room s i new_room =
      .ok { clients := s.clients.set i
              { s.client i with current_room := strncpy new_room ROOM_NAME_SIZE },
            message_pipe := p, mutex_sem := s.mutex_sem }) := by
  rcases Nat.eq_zero_or_pos s.mutex_sem with h | h
  · exact Or.inl ⟨h, withGate_held s _ h⟩
  · exact Or.inr ⟨h, _, join_room_free s i new_room hlen h hi⟩

theorem handle_client_disconnect_held (s : Server) (i : Nat) (h : s.mutex_sem = 0) :
    handle_client_disconnect s i = .blocked s :=
  withGate_held s _ h

theorem handle_client_disconnect_active (s : Server) (i : Nat) (h : s.mutex_sem = 1)
    (hact : (s.client i).is_active = true) :
    handle_client_disconnect s i = .blocked { s with mutex_sem := 0 } := by
  rw [handle_client_disconnect, withGate_free s _ (by omega)]
  simp only [client_gate, hact, if_true, h]
  rw [broadcast_to_room, withGate_held _ _ rfl]
  rfl

theorem handle_client_disconnect_inactive (s : Server) (i : Nat) (h : 0 < s.mutex_sem)
    (hact : (s.client i).is_active = false) :
    handle_client_disconnect s i = .exited s := by
  have hsem : s.mutex_sem - 1 + 1 = s.mutex_sem := by omega
  rw [handle_client_disconnect, withGate_free s _ h]
  simp [client_gate, hact, Outcome.andThen, sem_post, hsem]

theorem handle_client_disconnect_cases (s : Server) (i : Nat) (hsem : s.mutex_sem ≤ 1) :
    ∃ s', (handle_client_disconnect s i = .blocked s' ∨
        handle_client_disconnect s i = .exited s') ∧
      s'.clients = s.clients ∧ s'.mutex_sem ≤ s.mutex_sem := by
  rcases Nat.eq_zero_or_pos s.mutex_sem with h | h
  · exact ⟨s, Or.inl (handle_client_disconnect_held s i h), rfl, Nat.le_refl _⟩
  · cases hact : (s.client i).is_active
    · exact ⟨s, Or.inr (handle_client_disconnect_inactive s i h hact), rfl, Nat.le_refl _⟩
    · exact ⟨_, Or.inl (handle_client_disconnect_active s i (by omega) hact), rfl,
        Nat.zero_le _⟩

theorem handle_client_claim_cases (s : Server) (client_socket pid : Int) :
    (s.mutex_sem = 0 ∧ handle_client_claim s client_socket pid = .blocked s) ∨
    (0 < s.mutex_sem ∧ find_free_slot s = none ∧
      handle_client_claim s client_socket pid = .exited s) ∨
    (0 < s.mutex_sem ∧ ∃ i, find_free_slot s = some i ∧
      handle_client_claim s client_socket pid =
        .ok { s with
          clients := s.clients.set i
            { s.client i with socket := client_socket, is_active := true,
                              handler_pid := pid, current_room := "general".toList } }) := by
  rcases Nat.eq_zero_or_pos s.mutex_sem with h | h
  · exact Or.inl ⟨h, withGate_held s _ h⟩
  · have hsem : s.mutex_sem - 1 + 1 = s.mutex_sem := by omega
    have hg : strncpy "general".toList ROOM_NAME_SIZE = "general".toList := by decide
    rw [handle_client_claim, withGate_free s _ h,
      find_free_slot_congr s { s with mutex_sem := s.mutex_sem - 1 } rfl]
    cases hf : find_free_slot s with
    | none => exact Or.inr (Or.inl ⟨h, rfl, by simp [sem_post, hsem]⟩)
    | some i =>
      refine Or.inr (Or.inr ⟨h, i, rfl, ?_⟩)
      simp only [sem_post, hsem, Server.setClient, client_gate, hg]

theorem handle_client_register_cases (s : Server) (i : Nat) (client_socket : Int)
    (received : Option CStr) (hlen : s.clients.length = MAX_CLIENTS) :
    handle_client_register s i client_socket received = .overflow ∨
    handle_client_register s i client_socket received = .ok s ∨
    (s.mutex_sem = 0 ∧ handle_client_register s i client_socket received = .blocked s) ∨
    (0 < s.mutex_sem ∧ ∃ p, handle_client_register s i client_socket received =
      .exited { clients := s.clients.set i { s.client i with is_active := false },
                message_pipe := p, mutex_sem := s.mutex_sem }) ∨
    (0 < s.mutex_sem ∧ ∃ u p, find_client_by_username s u = none ∧
      handle_client_register s i client_socket received =
        .ok { clients := s.clients.set i { s.client i with username := u },
              message_pipe := p, mutex_sem := s.mutex_sem }) := by
  cases received with
  | none => exact Or.inr (Or.inl rfl)
  | some buffer =>
    rw [handle_client_register]
    cases sscanf_JOIN buffer with
    | none => exact Or.inr (Or.inl rfl)
    | some username =>
      simp only
      by_cases hu : USERNAME_SIZE ≤ username.length
      · exact Or.inl (by simp [hu])
      · simp only [hu, if_false]
        rcases Nat.eq_zero_or_pos s.mutex_sem with h | h
        · refine Or.inr (Or.inr (Or.inl ⟨h, ?_⟩))
          rw [withGate_held s _ h]; rfl
        · have hsem : s.mutex_sem - 1 + 1 = s.mutex_sem := by omega
          have hcp : strncpy username USERNAME_SIZE = username :=
            strncpy_of_le _ _ (by omega)
          rw [withGate_free s _ h, find_client_by_username_gate]
          cases hf : find_client_by_username s username with
          | some k =>
            refine Or.inr (Or.inr (Or.inr (Or.inl ⟨h, ?_⟩)))
            simp only [Option.isSome_some, if_true, Outcome.andThen, send_message_to_socket,
              Server.setClient, client_gate, sem_post, hsem]
            exact ⟨_, rfl⟩
          | none =>
            refine Or.inr (Or.inr (Or.inr (Or.inr ⟨h, username, ?_⟩)))
            simp only [Option.isSome_none, Bool.false_eq_true, if_false, Outcome.andThen,
              Server.setClient, client_gate, sem_post, hsem, hcp]
            obtain ⟨p, hp⟩ := (broadcast_to_room_cases
              (send_message_to_socket
                { clients := s.clients.set i { s.client i with username := username },
                  message_pipe := s.message_pipe, mutex_sem := s.mutex_sem }
                client_socket (snprintf BUFFER_SIZE (welcome_text username)))
              (snprintf BUFFER_SIZE
                ("* ".toList ++ username ++ " has joined the chat\n".toList))
              "general".toList (-1)
              (by simp [send_message_to_socket, hlen])).resolve_left
                (by simp [send_message_to_socket]; omega) |>.2
            exact ⟨_, hf, hp⟩

theorem handle_client_dispatch_cases (s : Server) (i : Nat) (buffer : CStr)
    (hlen : s.clients.length = MAX_CLIENTS) (hi : i < MAX_CLIENTS)
    (hsem : s.mutex_sem ≤ 1) :
    handle_client_dispatch s i buffer = .overflow ∨
    (∃ s', (handle_client_dispatch s i buffer = .ok s' ∨
        handle_client_dispatch s i buffer = .blocked s' ∨
        handle_client_dispatch s i buffer = .exited s') ∧
      s'.clients = s.clients ∧ s'.mutex_sem ≤ s.mutex_sem) ∨
    (0 < s.mutex_sem ∧ buffer.take 6 = "/join ".toList ∧ ∃ p, handle_client_dispatch s i buffer =
      .ok { clients := s.clients.set i
              { s.client i with current_room := (buffer.drop 6).take (ROOM_NAME_SIZE - 1) },
            message_pipe := p, mutex_sem := s.mutex_sem }) := by
  rw [handle_client_dispatch]
  by_cases h1 : strncmp_eq buffer "/pm ".toList 4 = true
  · simp only [h1, if_true]
    cases strchr_space (buffer.drop 4) with
    | none => exact Or.inr (Or.inl ⟨s, Or.inl rfl, rfl, Nat.le_refl _⟩)
    | some n =>
      simp only
      by_cases hn : USERNAME_SIZE ≤ n
      · exact Or.inl (by simp [hn])
      · simp only [hn, if_false]
        rcases send_private_message_cases s (s.client i).username
          (strncpy (buffer.drop 4) n)
          (strncpy (buffer.drop (4 + n + 1)) (BUFFER_SIZE - 1)) with ⟨_, h⟩ | ⟨_, p, h⟩
        · exact Or.inr (Or.inl ⟨s, Or.inr (Or.inl h), rfl, Nat.le_refl _⟩)
        · exact Or.inr (Or.inl ⟨_, Or.inl h, rfl, Nat.le_refl _⟩)
  · simp only [h1, Bool.false_eq_true, if_false]
    by_cases h2 : strncmp_eq buffer "/join ".toList 6 = true
    · simp only [h2, if_true]
      rcases join_room_cases s i (strncpy (buffer.drop 6) (ROOM_NAME_SIZE - 1)) hlen hi
        with ⟨_, h⟩ | ⟨hpos, p, h⟩
      · exact Or.inr (Or.inl ⟨s, Or.inr (Or.inl h), rfl, Nat.le_refl _⟩)
      · refine Or.inr (Or.inr ⟨hpos, ?_, p, ?_⟩)
        · simpa [strncmp_eq] using h2
        · rw [h, strncpy_of_le (strncpy (buffer.drop 6) (ROOM_NAME_SIZE - 1)) ROOM_NAME_SIZE
            (by simp [strncpy, ROOM_NAME_SIZE])]
          rfl
    · simp only [h2, Bool.false_eq_true, if_false]
      by_cases h3 : strncmp_eq buffer "/exit".toList 5 = true
      · simp only [h3, if_true]
        obtain ⟨s', h, hc, hs⟩ := handle_client_disconnect_cases
          (send_message_to_socket s (s.client i).socket "SERVER_EXIT_ACK\n".toList) i hsem
        rcases h with h | h
        · exact Or.inr (Or.inl ⟨s', Or.inr (Or.inl h), hc, hs⟩)
        · exact Or.inr (Or.inl ⟨s', Or.inr (Or.inr h), hc, hs⟩)
      · simp only [h3, Bool.false_eq_true, if_false]
        rcases broadcast_to_room_cases s
          (snprintf BUFFER_SIZE
            ((s.client i).username ++ ": ".toList ++ buffer ++ "\n".toList))
          (s.client i).current_room (-1) hlen with ⟨_, h⟩ | ⟨_, p, h⟩
        · exact Or.inr (Or.inl ⟨s, Or.inr (Or.inl h), rfl, Nat.le_refl _⟩)
        · exact Or.inr (Or.inl ⟨_, Or.inl h, rfl, Nat.le_refl _⟩)

/-! ## Exit, claim and registration in general -/

theorem handle_client_exit_blocks (s : Server) (i : Nat) (hgate : s.mutex_sem = 1)
    (hact : (s.client i).is_active = true) :
    handle_client_dispatch s i "/exit".toList =
      .blocked { s with
        message_pipe := s.message_pipe ++
          [⟨(s.client i).socket, "SERVER_EXIT_ACK\n".toList⟩],
        mutex_sem := 0 } := by
  have h1 : strncmp_eq "/exit".toList "/pm ".toList 4 = false := by decide
  have h2 : strncmp_eq "/exit".toList "/join ".toList 6 = false := by decide
  have h3 : strncmp_eq "/exit".toList "/exit".toList 5 = true := by decide
  have h4 : strncpy "SERVER_EXIT_ACK\n".toList (BUFFER_SIZE - 1) = "SERVER_EXIT_ACK\n".toList := by
    decide
  rw [handle_client_dispatch]
  simp only [h1, h2, h3, Bool.false_eq_true, if_false, if_true]
  rw [handle_client_disconnect_active
    (send_message_to_socket s (s.client i).socket "SERVER_EXIT_ACK\n".toList) i hgate hact]
  simp only [send_message_to_socket, h4]

theorem handle_client_claim_keeps_username (s : Server) (client_socket pid : Int) (i : Nat)
    (hlen : s.clients.length = MAX_CLIENTS) (hgate : 0 < s.mutex_sem)
    (hfree : find_free_slot s = some i) :
    ∃ s', handle_client_claim s client_socket pid = .ok s' ∧
      (s'.client i).username = (s.client i).username ∧
      (s'.client i).current_room = "general".toList ∧
      (s'.client i).socket = client_socket ∧ (s'.client i).is_active = true := by
  have hi : i < s.clients.length := by rw [hlen]; exact (find_free_slot_some s i hfree).1
  rcases handle_client_claim_cases s client_socket pid with ⟨h0, _⟩ | ⟨_, hn, _⟩ | ⟨_, k, hk, hok⟩
  · omega
  · rw [hfree] at hn; cases hn
  · rw [hfree] at hk
    cases hk
    refine ⟨_, hok, ?_⟩
    simp only [Server.client, client_set_self _ _ _ hi, and_self]

theorem sscanf_JOIN_token (u : CStr) (hne : u ≠ []) (hws : ∀ c ∈ u, isspace c = false) :
    sscanf_JOIN ("JOIN:".toList ++ u) = some u := by
  have h5 : "JOIN:".toList.length = 5 := by decide
  have ht : ("JOIN:".toList ++ u).take 5 = "JOIN:".toList := List.take_left' h5
  have hd : ("JOIN:".toList ++ u).drop 5 = u := List.drop_left' h5
  have hdw : u.dropWhile isspace = u := by
    cases u with
    | nil => rfl
    | cons c cs =>
      have hc : isspace c = false := hws c (List.mem_cons_self _ _)
      simp [List.dropWhile, hc]
  have htw : u.takeWhile (fun c => !isspace c) = u := by
    rw [List.takeWhile_eq_self_iff]
    intro c hc
    simp [hws c hc]
  simp only [sscanf_JOIN, ht, hd, hdw, htw, if_true, hne, if_false]

theorem handle_client_register_decision (s : Server) (i : Nat) (client_socket : Int)
    (u : CStr) (hlen : s.clients.length = MAX_CLIENTS) (hgate : 0 < s.mutex_sem)
    (hne : u ≠ []) (hws : ∀ c ∈ u, isspace c = false) (hu : u.length ≤ USERNAME_SIZE - 1) :
    ((∃ j, j < MAX_CLIENTS ∧ (s.client j).is_active = true ∧ (s.client j).username = u) →
      handle_client_register s i client_socket (some ("JOIN:".toList ++ u)) =
        .exited { clients := s.clients.set i { s.client i with is_active := false },
                  message_pipe := s.message_pipe ++
                    [⟨client_socket,
                      "* Error: Username '".toList ++ u ++ "' is already taken\n".toList⟩],
                  mutex_sem := s.mutex_sem }) ∧
    ((∀ j, j < MAX_CLIENTS →
        ¬((s.client j).is_active = true ∧ (s.client j).username = u)) →
      ∃ p, handle_client_register s i client_socket (some ("JOIN:".toList ++ u)) =
        .ok { clients := s.clients.set i { s.client i with username := u },
              message_pipe := p, mutex_sem := s.mutex_sem }) := by
  have hsem : s.mutex_sem - 1 + 1 = s.mutex_sem := by omega
  have hu' : ¬ USERNAME_SIZE ≤ u.length := by simp only [USERNAME_SIZE] at hu ⊢; omega
  have e1 : "* Error: Username '".toList.length = 19 := by decide
  have e2 : "' is already taken\n".toList.length = 19 := by decide
  have herr : strncpy (snprintf BUFFER_SIZE
      ("* Error: Username '".toList ++ u ++ "' is already taken\n".toList))
      (BUFFER_SIZE - 1) =
      "* Error: Username '".toList ++ u ++ "' is already taken\n".toList := by
    rw [strncpy_snprintf, snprintf_of_lt _ _ (by
      simp only [List.length_append, e1, e2, BUFFER_SIZE, USERNAME_SIZE] at hu ⊢; omega)]
  refine ⟨?_, ?_⟩
  · intro ⟨j, hj, hja, hjn⟩
    have hf : (find_client_by_username s u).isSome = true := by
      cases h : find_client_by_username s u with
      | some k => rfl
      | none => exact absurd ⟨hja, hjn⟩ ((find_client_by_username_eq_none s u).mp h j hj)
    rw [handle_client_register]
    simp only [sscanf_JOIN_token u hne hws, hu', if_false]
    rw [withGate_free s _ hgate, find_client_by_username_gate]
    simp only [hf, if_true, Outcome.andThen, send_message_to_socket, Server.setClient,
      client_gate, sem_post, hsem, herr]
  · intro hnone
    rcases handle_client_register_cases s i client_socket (some ("JOIN:".toList ++ u)) hlen
      with ho | ho | ⟨h0, _⟩ | ⟨_, p, ho⟩ | ⟨_, v, p, _, ho⟩
    all_goals
      have hf : find_client_by_username s u = none :=
        (find_client_by_username_eq_none s u).mpr hnone
      have hcp : strncpy u USERNAME_SIZE = u := strncpy_of_le _ _ (by omega)
      have hb := (broadcast_to_room_cases
        (send_message_to_socket
          { clients := s.clients.set i { s.client i with username := u },
            message_pipe := s.message_pipe, mutex_sem := s.mutex_sem }
          client_socket (snprintf BUFFER_SIZE (welcome_text u)))
        (snprintf BUFFER_SIZE ("* ".toList ++ u ++ " has joined the chat\n".toList))
        "general".toList (-1)
        (by simp [send_message_to_socket, hlen])).resolve_left
          (by simp [send_message_to_socket]; omega) |>.2
      obtain ⟨q, hq⟩ := hb
      refine ⟨q, ?_⟩
      rw [handle_client_register]
      simp only [sscanf_JOIN_token u hne hws, hu', if_false]
      rw [withGate_free s _ hgate, find_client_by_username_gate]
      simp only [hf, Option.isSome_none, Bool.false_eq_true, if_false, Outcome.andThen,
        Server.setClient, client_gate, sem_post, hsem, hcp]
      exact hq

/-! ## Invariants of the running system -/

theorem client_of_set (s s' : Server) (i : Nat) (c : Client)
    (hs : s'.clients = s.clients.set i c) (hi : i < s.clients.length) (j : Nat) :
    s'.client j = if j = i then c else s.client j := by
  by_cases hj : j = i
  · subst hj
    simp only [Server.client, hs, if_true]
    exact client_set_self _ _ _ hi
  · simp only [Server.client, hs, hj, if_false]
    exact client_set_ne _ _ _ _ (Ne.symm hj)

theorem phase_of_set (ph : List Phase) (i : Nat) (q : Phase) (hi : i < ph.length) (j : Nat) :
    (ph.set i q).getD j .idle = if j = i then q else ph.getD j .idle := by
  by_cases hj : j = i
  · subst hj
    simp [List.getD_eq_getElem?_getD, hi]
  · simp [List.getD_eq_getElem?_getD, List.getElem?_set_ne (Ne.symm hj), hj]

theorem slot_of_phase (ph : List Phase) (i : Nat) (h : ph.getD i .idle ≠ .idle) :
    i < ph.length := by
  by_contra hlt
  apply h
  simp [List.getD_eq_getElem?_getD, List.getElem?_eq_none (Nat.le_of_not_lt hlt)]

theorem client_default_of_ge (s : Server) (j : Nat) (h : s.clients.length ≤ j) :
    s.client j = default := by
  simp [Server.client, List.getD_eq_getElem?_getD, List.getElem?_eq_none h]

theorem inv_same (s s' : Server) (ph ph' : List Phase) (h : Inv ⟨s, ph⟩)
    (hc : s'.clients = s.clients) (hsem : s'.mutex_sem ≤ 1)
    (hlen : ph'.length = ph.length)
    (hph : ∀ j k, ph'.getD j .idle = .registering k → ph.getD j .idle = .registering k) :
    Inv ⟨s', ph'⟩ := by
  obtain ⟨h1, h2, _, h4, h5, h6⟩ := h
  have hcl : ∀ j, s'.client j = s.client j := fun j => by simp only [Server.client, hc]
  refine ⟨by rw [hc]; exact h1, by rw [hlen]; exact h2, hsem, ?_, ?_, ?_⟩
  · intro j; rw [hcl]; exact h4 j
  · intro j k hk; rw [hcl]; exact h5 j k (hph j k hk)
  · intro a b; simp only [hcl]; exact h6 a b

theorem inv_same_set (s s' : Server) (ph : List Phase) (i : Nat) (q : Phase)
    (h : Inv ⟨s, ph⟩) (hc : s'.clients = s.clients) (hsem : s'.mutex_sem ≤ 1)
    (hq : ∀ k, q ≠ .registering k) :
    Inv ⟨s', ph.set i q⟩ := by
  refine inv_same s s' ph _ h hc hsem (List.length_set _ _ _) ?_
  intro j k hk
  by_cases hi : i < ph.length
  · rw [phase_of_set ph i q hi j] at hk
    by_cases hj : j = i
    · simp only [hj, if_true] at hk
      exact absurd hk (hq k)
    · simpa only [hj, if_false] using hk
  · rwa [List.set_eq_of_length_le (Nat.le_of_not_lt hi)] at hk

theorem inv_update (s s' : Server) (ph : List Phase) (i : Nat) (c : Client) (q : Phase)
    (h : Inv ⟨s, ph⟩) (hi : i < MAX_CLIENTS)
    (hc : s'.clients = s.clients.set i c) (hsem : s'.mutex_sem ≤ 1)
    (hA : c.is_active = false → c.username = [])
    (hB : c.is_active = true → ∀ j, j ≠ i → (s.client j).is_active = true →
      c.username = (s.client j).username → c.username = [])
    (hC : ∀ k, q = .registering k →
      c.is_active = true ∧ c.username = [] ∧ c.current_room = "general".toList) :
    Inv ⟨s', ph.set i q⟩ := by
  obtain ⟨h1, h2, _, h4, h5, h6⟩ := h
  have hic : i < s.clients.length := by rw [h1]; exact hi
  have hip : i < ph.length := by rw [h2]; exact hi
  have hcl := client_of_set s s' i c hc hic
  refine ⟨by rw [hc, List.length_set]; exact h1, by rw [List.length_set]; exact h2,
    hsem, ?_, ?_, ?_⟩
  · intro j
    rw [hcl]
    by_cases hj : j = i
    · simp only [hj, if_true]; exact hA
    · simp only [hj, if_false]; exact h4 j
  · intro j k
    show (ph.set i q).getD j .idle = .registering k → _
    rw [hcl, phase_of_set ph i q hip j]
    by_cases hj : j = i
    · simp only [hj, if_true]; exact hC k
    · simp only [hj, if_false]; exact h5 j k
  · intro a b hab
    show (s'.client a).is_active = true → (s'.client b).is_active = true →
      (s'.client a).username = (s'.client b).username → (s'.client a).username = []
    rw [hcl a, hcl b]
    by_cases ha : a = i
    · have hb : b ≠ i := fun hb => hab (ha.trans hb.symm)
      simp only [ha, if_true, hb, if_false]
      intro hca hjb he
      exact hB hca b hb hjb he
    · by_cases hb : b = i
      · simp only [ha, if_false, hb, if_true]
        intro hja hcb he
        rw [he]
        exact hB hcb a ha hja he.symm
      · simp only [ha, hb, if_false]
        exact h6 a b hab

theorem rooms_same (s s' : Server) (h : RoomsNonEmpty s) (hc : s'.clients = s.clients) :
    RoomsNonEmpty s' := by
  intro j
  have : s'.client j = s.client j := by simp only [Server.client, hc]
  rw [this]; exact h j

theorem rooms_update (s s' : Server) (i : Nat) (c : Client) (h : RoomsNonEmpty s)
    (hi : i < s.clients.length) (hc : s'.clients = s.clients.set i c)
    (hD : c.is_active = true → c.current_room ≠ []) :
    RoomsNonEmpty s' := by
  intro j
  rw [client_of_set s s' i c hc hi j]
  by_cases hj : j = i
  · simp only [hj, if_true]; exact hD
  · simp only [hj, if_false]; exact h j

theorem inv_boot : Inv boot ∧ RoomsNonEmpty boot.shared := by
  have hcl : ∀ j, boot.shared.client j = default := by
    intro j
    by_cases hj : j < MAX_CLIENTS
    · simp [boot, init_shared_memory, Server.client, List.getD_eq_getElem?_getD,
        List.getElem?_replicate, hj]
    · exact client_default_of_ge _ _ (by
        simp only [boot, init_shared_memory, List.length_replicate]; omega)
  have hph : ∀ j, boot.phase.getD j .idle = .idle := by
    intro j
    by_cases hj : j < MAX_CLIENTS
    · simp [boot, List.getD_eq_getElem?_getD, List.getElem?_replicate, hj]
    · simp [boot, List.getD_eq_getElem?_getD, List.getElem?_replicate, hj]
  refine ⟨⟨by simp [boot, init_shared_memory], by simp [boot], by decide, ?_, ?_, ?_⟩, ?_⟩
  · intro j _; rw [hcl]; rfl
  · intro j k hk; rw [hph] at hk; cases hk
  · intro a b _ ha; rw [hcl] at ha; cases ha
  · intro j hj; rw [hcl] at hj; cases hj

theorem join_argument_ne_nil (buffer : CStr) (h6 : buffer.take 6 = "/join ".toList)
    (hb : buffer ≠ "/join ".toList) : (buffer.drop 6).take (ROOM_NAME_SIZE - 1) ≠ [] := by
  intro h
  have hd : buffer.drop 6 = [] := by
    cases hdr : buffer.drop 6 with
    | nil => rfl
    | cons c cs => rw [hdr] at h; simp [ROOM_NAME_SIZE] at h
  apply hb
  have := List.take_append_drop 6 buffer
  rw [hd, h6, List.append_nil] at this
  exact this.symm

theorem step_inv (sys sys' : System) (e : Event) (h : Inv sys)
    (hstep : step sys e = some sys') :
    Inv sys' ∧ (e.bareJoin = false → RoomsNonEmpty sys.shared → RoomsNonEmpty sys'.shared) := by
  have h' := h
  obtain ⟨hlen, hplen, hsem, hI1, hP1, hU⟩ := h'
  cases e with
  | connect sock pid =>
    simp only [step] at hstep
    rcases handle_client_claim_cases sys.shared sock pid with
      ⟨_, hb⟩ | ⟨_, _, hx⟩ | ⟨_, i, hf, hok⟩
    · rw [hb] at hstep
      simp only [Option.some.injEq] at hstep
      subst hstep
      exact ⟨h, fun _ hr => hr⟩
    · rw [hx] at hstep
      simp only [Option.some.injEq] at hstep
      subst hstep
      exact ⟨h, fun _ hr => hr⟩
    · rw [hok, hf] at hstep
      simp only [Option.map_some', Option.some.injEq] at hstep
      subst hstep
      obtain ⟨hi, hina⟩ := find_free_slot_some _ _ hf
      have hname := hI1 i hina
      refine ⟨inv_update sys.shared _ sys.phase i _ (.registering sock) h hi rfl hsem
        ?_ ?_ ?_, ?_⟩
      · intro hc; cases hc
      · intro _ j _ _ _; exact hname
      · intro k _; exact ⟨rfl, hname, rfl⟩
      · intro _ hr
        exact rooms_update sys.shared _ i _ hr (by rw [hlen]; exact hi) rfl
          (fun _ => (by decide : "general".toList ≠ []))
  | first slot received =>
    simp only [step] at hstep
    cases hph : sys.phase.getD slot .idle with
    | idle => rw [hph] at hstep; cases hstep
    | looping => rw [hph] at hstep; cases hstep
    | stuck => rw [hph] at hstep; cases hstep
    | registering k =>
      rw [hph] at hstep
      simp only at hstep
      have hi : slot < MAX_CLIENTS := by
        rw [← hplen]; exact slot_of_phase _ _ (by rw [hph]; intro hc; cases hc)
      obtain ⟨hact, hname, _⟩ := hP1 slot k hph
      by_cases hfit : recv_fits received = true
      · simp only [hfit, if_true] at hstep
        rcases handle_client_register_cases sys.shared slot k received hlen with
          ho | ho | ⟨_, ho⟩ | ⟨_, p, ho⟩ | ⟨_, u, p, hnone, ho⟩
        · rw [ho] at hstep; cases hstep
        · rw [ho] at hstep
          simp only [System.after, Option.some.injEq] at hstep
          subst hstep
          exact ⟨inv_same_set _ _ _ _ _ h rfl hsem (fun k hk => by cases hk),
            fun _ hr => hr⟩
        · rw [ho] at hstep
          simp only [System.after, Option.some.injEq] at hstep
          subst hstep
          exact ⟨inv_same_set _ _ _ _ _ h rfl hsem (fun k hk => by cases hk),
            fun _ hr => hr⟩
        · rw [ho] at hstep
          simp only [System.after, Option.some.injEq] at hstep
          subst hstep
          refine ⟨inv_update sys.shared _ sys.phase slot _ .idle h hi rfl hsem
            ?_ ?_ ?_, ?_⟩
          · intro _; exact hname
          · intro hc; cases hc
          · intro k hk; cases hk
          · intro _ hr
            exact rooms_update sys.shared _ slot _ hr (by rw [hlen]; exact hi) rfl
              (fun hc => by cases hc)
        · rw [ho] at hstep
          simp only [System.after, Option.some.injEq] at hstep
          subst hstep
          refine ⟨inv_update sys.shared _ sys.phase slot _ .looping h hi rfl hsem
            ?_ ?_ ?_, ?_⟩
          · intro hc
            rw [show ({ sys.shared.client slot with username := u } : Client).is_active =
              (sys.shared.client slot).is_active from rfl, hact] at hc
            cases hc
          · intro _ j _ hj he
            exfalso
            by_cases hjm : j < MAX_CLIENTS
            · exact (find_client_by_username_eq_none _ _).mp hnone j hjm ⟨hj, he.symm⟩
            · rw [client_default_of_ge _ _ (by rw [hlen]; omega)] at hj
              cases hj
          · intro k hk; cases hk
          · intro _ hr
            exact rooms_update sys.shared _ slot _ hr (by rw [hlen]; exact hi) rfl
              (fun _ => hr slot hact)
      · simp only [hfit, Bool.false_eq_true, if_false] at hstep
        cases hstep
  | turn slot received =>
    simp only [step] at hstep
    cases hph : sys.phase.getD slot .idle with
    | idle => rw [hph] at hstep; cases hstep
    | registering k => rw [hph] at hstep; cases hstep
    | stuck => rw [hph] at hstep; cases hstep
    | looping =>
      rw [hph] at hstep
      simp only at hstep
      have hi : slot < MAX_CLIENTS := by
        rw [← hplen]; exact slot_of_phase _ _ (by rw [hph]; intro hc; cases hc)
      by_cases hfit : recv_fits received = true
      · simp only [hfit, if_true] at hstep
        cases received with
        | none =>
          obtain ⟨s', ho, hc, hs⟩ := handle_client_disconnect_cases sys.shared slot hsem
          simp only [handle_client_turn] at hstep
          rcases ho with ho | ho
          · rw [ho] at hstep
            simp only [System.after, Option.some.injEq] at hstep
            subst hstep
            exact ⟨inv_same_set _ _ _ _ _ h hc (Nat.le_trans hs hsem) (fun k hk => by cases hk),
              fun _ hr => rooms_same _ _ hr hc⟩
          · rw [ho] at hstep
            simp only [System.after, Option.some.injEq] at hstep
            subst hstep
            exact ⟨inv_same_set _ _ _ _ _ h hc (Nat.le_trans hs hsem) (fun k hk => by cases hk),
              fun _ hr => rooms_same _ _ hr hc⟩
        | some buffer =>
          simp only [handle_client_turn] at hstep
          rcases handle_client_dispatch_cases sys.shared slot buffer hlen hi hsem with
            ho | ⟨s', ho, hc, hs⟩ | ⟨_, h6, p, ho⟩
          · rw [ho] at hstep; cases hstep
          · rcases ho with ho | ho | ho <;>
            · rw [ho] at hstep
              simp only [System.after, Option.some.injEq] at hstep
              subst hstep
              exact ⟨inv_same_set _ _ _ _ _ h hc (Nat.le_trans hs hsem) (fun k hk => by cases hk),
                fun _ hr => rooms_same _ _ hr hc⟩
          · rw [ho] at hstep
            simp only [System.after, Option.some.injEq] at hstep
            subst hstep
            refine ⟨inv_update sys.shared _ sys.phase slot _ .looping h hi rfl hsem
              ?_ ?_ ?_, ?_⟩
            · exact hI1 slot
            · intro hc j hj hja he
              exact hU slot j (Ne.symm hj) hc hja he
            · intro k hk; cases hk
            · intro hbare hr
              refine rooms_update sys.shared _ slot _ hr (by rw [hlen]; exact hi) rfl
                (fun _ => join_argument_ne_nil buffer h6 ?_)
              simpa [Event.bareJoin] using hbare
      · simp only [hfit, Bool.false_eq_true, if_false] at hstep
        cases hstep

theorem run_inv : ∀ (es : List Event) (sys sys' : System), Inv sys →
    run sys es = some sys' →
    Inv sys' ∧ ((∀ e ∈ es, e.bareJoin = false) → RoomsNonEmpty sys.shared →
      RoomsNonEmpty sys'.shared)
  | [], sys, sys', h, hrun => by
    simp only [run, Option.some.injEq] at hrun
    subst hrun
    exact ⟨h, fun _ hr => hr⟩
  | e :: es, sys, sys', h, hrun => by
    simp only [run] at hrun
    cases hs : step sys e with
    | none => rw [hs] at hrun; cases hrun
    | some sys1 =>
      rw [hs] at hrun
      simp only [Option.some_bind] at hrun
      obtain ⟨h1, hr1⟩ := step_inv sys sys1 e h hs
      obtain ⟨h2, hr2⟩ := run_inv es sys1 sys' h1 hrun
      refine ⟨h2, fun hb hr => hr2 (fun e' he' => hb e' (List.mem_cons_of_mem _ he'))
        (hr1 (hb e (List.mem_cons_self _ _)) hr)⟩

/-- C4, as the code has it: in every state reached from the initial registry
by handler steps (slot claim, first line, loop turns on any received lines,
disconnect), two distinct active slots never hold the same non-empty
username. -/
theorem usernames_unique_when_non_empty (es : List Event) (sys : System)
    (hrun : run boot es = some sys) (i j : Nat) (hij : i ≠ j)
    (hi : (sys.shared.client i).is_active = true)
    (hj : (sys.shared.client j).is_active = true)
    (hne : (sys.shared.client i).username ≠ []) :
    (sys.shared.client i).username ≠ (sys.shared.client j).username := by
  obtain ⟨⟨_, _, _, _, _, hU⟩, _⟩ := run_inv es boot sys inv_boot.1 hrun
  intro he
  exact hne (hU i j hij hi hj he)

theorem usernames_unique_when_non_empty_witness :
    ∃ sys, run boot aliceBobSession = some sys ∧
      (sys.shared.client 0).username = "alice".toList ∧
      (sys.shared.client 0).username ≠ (sys.shared.client 1).username := by
  cases h : run boot aliceBobSession with
  | none => exact absurd h (by decide)
  | some sys =>
    have e : (run boot aliceBobSession).map (fun t =>
        ((t.shared.client 0).is_active, (t.shared.client 1).is_active,
          (t.shared.client 0).username)) = some (true, true, "alice".toList) := by decide
    rw [h] at e
    simp only [Option.map_some', Option.some.injEq, Prod.mk.injEq] at e
    exact ⟨sys, rfl, e.2.2, usernames_unique_when_non_empty aliceBobSession sys h 0 1
      (by decide) e.1 e.2.1 (by rw [e.2.2]; decide)⟩

/-- C4 fails as stated: after two connections have claimed slots 0 and 1 and
before either has sent a line, both slots are active and both hold the same
(empty) username. -/
theorem usernames_unique_counterexample :
    (run boot [.connect 4 101, .connect 5 102]).map
        (fun sys => (sys.shared.client 0, sys.shared.client 1)) =
      some (⟨4, [], "general".toList, true, 101⟩, ⟨5, [], "general".toList, true, 102⟩) := by
  decide

/-- C10, as the code has it: in every state reached from the initial registry
by handler steps among which no loop turn receives the line `/join ` with
nothing after the prefix, every active record's room is non-empty. -/
theorem rooms_non_empty_without_bare_join (es : List Event) (sys : System)
    (hrun : run boot es = some sys)
    (hjoin : ∀ slot, Event.turn slot (some "/join ".toList) ∉ es)
    (i : Nat) (hi : (sys.shared.client i).is_active = true) :
    (sys.shared.client i).current_room ≠ [] := by
  refine (run_inv es boot sys inv_boot.1 hrun).2 ?_ inv_boot.2 i hi
  intro e he
  cases e with
  | connect _ _ => rfl
  | first _ _ => rfl
  | turn slot received =>
    cases received with
    | none => rfl
    | some buffer =>
      simp only [Event.bareJoin, beq_eq_false_iff_ne, ne_eq]
      intro hb
      subst hb
      exact hjoin slot he

theorem rooms_non_empty_without_bare_join_witness :
    ∃ sys, run boot aliceBobSession = some sys ∧
      (sys.shared.client 1).current_room = "sports".toList ∧
      (sys.shared.client 1).current_room ≠ [] := by
  cases h : run boot aliceBobSession with
  | none => exact absurd h (by decide)
  | some sys =>
    have e : (run boot aliceBobSession).map (fun t =>
        ((t.shared.client 1).is_active, (t.shared.client 1).current_room)) =
        some (true, "sports".toList) := by decide
    rw [h] at e
    simp only [Option.map_some', Option.some.injEq, Prod.mk.injEq] at e
    exact ⟨sys, rfl, e.2, rooms_non_empty_without_bare_join aliceBobSession sys h
      (by intro slot hmem; simp [aliceBobSession] at hmem) 1 e.1⟩

/-- C10 fails as stated: alice registers and then sends the line `/join `
with nothing after the prefix; her record stays active and its room becomes
the empty string. -/
theorem rooms_non_empty_counterexample :
    (run boot [.connect 4 101, .first 0 (some "JOIN:alice".toList),
        .turn 0 (some "/join ".toList)]).map (fun sys => sys.shared.client 0) =
      some ⟨4, "alice".toList, [], true, 101⟩ := by
  decide

/-- C7: in every state the server reaches in which the handler of slot `i`
(socket `client_socket`) has claimed its slot and waits for its first line,
with the gate free, the first line `JOIN:u` (`u` a non-empty token without
white space, at most 31 bytes) is rejected exactly when an active record in
another slot has username `u`.  On rejection the one frame enqueued is the
"already taken" error to `client_socket`, slot `i` becomes inactive and
nothing else changes; otherwise the handler goes on with slot `i` active,
username `u`, room `general`, and every other slot unchanged. -/
theorem registration_decision (es : List Event) (sys : System)
    (hrun : run boot es = some sys) (i : Nat) (client_socket : Int)
    (hph : sys.phase.getD i .idle = .registering client_socket)
    (hgate : 0 < sys.shared.mutex_sem)
    (u : CStr) (hne : u ≠ []) (hws : ∀ c ∈ u, isspace c = false)
    (hu : u.length ≤ USERNAME_SIZE - 1) :
    ((∃ s', handle_client_register sys.shared i client_socket
        (some ("JOIN:".toList ++ u)) = .exited s') ↔
      ∃ j, j < MAX_CLIENTS ∧ j ≠ i ∧ (sys.shared.client j).is_active = true ∧
        (sys.shared.client j).username = u) ∧
    ((∃ j, j < MAX_CLIENTS ∧ j ≠ i ∧ (sys.shared.client j).is_active = true ∧
        (sys.shared.client j).username = u) →
      handle_client_register sys.shared i client_socket (some ("JOIN:".toList ++ u)) =
        .exited { sys.shared with
          clients := sys.shared.clients.set i
            { sys.shared.client i with is_active := false },
          message_pipe := sys.shared.message_pipe ++
            [⟨client_socket,
              "* Error: Username '".toList ++ u ++ "' is already taken\n".toList⟩] }) ∧
    ((¬ ∃ j, j < MAX_CLIENTS ∧ j ≠ i ∧ (sys.shared.client j).is_active = true ∧
        (sys.shared.client j).username = u) →
      ∃ s', handle_client_register sys.shared i client_socket
          (some ("JOIN:".toList ++ u)) = .ok s' ∧
        (s'.client i).is_active = true ∧ (s'.client i).username = u ∧
        (s'.client i).current_room = "general".toList ∧
        ∀ j, j ≠ i → s'.client j = sys.shared.client j) := by
  obtain ⟨⟨hlen, hplen, _, _, hP1, _⟩, _⟩ := run_inv es boot sys inv_boot.1 hrun
  obtain ⟨hact, hname, hroom⟩ := hP1 i client_socket hph
  have hi : i < MAX_CLIENTS := by
    rw [← hplen]; exact slot_of_phase _ _ (by rw [hph]; intro hc; cases hc)
  have hic : i < sys.shared.clients.length := by rw [hlen]; exact hi
  obtain ⟨hrej, hacc⟩ := handle_client_register_decision sys.shared i client_socket u
    hlen hgate hne hws hu
  have hown : ∀ j, (sys.shared.client j).username = u → j ≠ i := by
    intro j hj hji
    rw [hji, hname] at hj
    exact hne hj.symm
  have hyes : (∃ j, j < MAX_CLIENTS ∧ j ≠ i ∧ (sys.shared.client j).is_active = true ∧
        (sys.shared.client j).username = u) →
      handle_client_register sys.shared i client_socket (some ("JOIN:".toList ++ u)) =
        .exited { sys.shared with
          clients := sys.shared.clients.set i
            { sys.shared.client i with is_active := false },
          message_pipe := sys.shared.message_pipe ++
            [⟨client_socket,
              "* Error: Username '".toList ++ u ++ "' is already taken\n".toList⟩] } :=
    fun ⟨j, hj, _, hja, hjn⟩ => hrej ⟨j, hj, hja, hjn⟩
  have hno : (¬ ∃ j, j < MAX_CLIENTS ∧ j ≠ i ∧ (sys.shared.client j).is_active = true ∧
        (sys.shared.client j).username = u) →
      ∃ s', handle_client_register sys.shared i client_socket
          (some ("JOIN:".toList ++ u)) = .ok s' ∧
        (s'.client i).is_active = true ∧ (s'.client i).username = u ∧
        (s'.client i).current_room = "general".toList ∧
        ∀ j, j ≠ i → s'.client j = sys.shared.client j := by
    intro hnone
    obtain ⟨p, hp⟩ := hacc (fun j hj ⟨hja, hjn⟩ => hnone ⟨j, hj, hown j hjn, hja, hjn⟩)
    refine ⟨_, hp, ?_⟩
    simp only [Server.client, client_set_self _ _ _ hic]
    refine ⟨hact, trivial, hroom, ?_⟩
    intro j hj
    exact client_set_ne _ _ _ _ (Ne.symm hj)
  refine ⟨⟨?_, ?_⟩, hyes, hno⟩
  · intro ⟨s', hs'⟩
    by_contra hnone
    obtain ⟨t, ht, _⟩ := hno hnone
    rw [ht] at hs'
    cases hs'
  · intro h
    exact ⟨_, hyes h⟩

theorem registration_decision_witness :
    ∃ sys, run boot secondConnection = some sys ∧
      sys.phase.getD 1 .idle = .registering 5 ∧
      ∃ s', handle_client_register sys.shared 1 5
        (some ("JOIN:".toList ++ "alice".toList)) = .exited s' := by
  cases h : run boot secondConnection with
  | none => exact absurd h (by decide)
  | some sys =>
    have e : (run boot secondConnection).map (fun t =>
        (t.phase.getD 1 .idle, t.shared.mutex_sem, (t.shared.client 0).is_active,
          (t.shared.client 0).username)) =
        some (.registering 5, 1, true, "alice".toList) := by decide
    rw [h] at e
    simp only [Option.map_some', Option.some.injEq, Prod.mk.injEq] at e
    obtain ⟨e1, e2, e3, e4⟩ := e
    exact ⟨sys, rfl, e1,
      (registration_decision secondConnection sys h 1 5 e1 (by omega) "alice".toList
        (by decide) (by decide) (by decide)).1.mpr ⟨0, by decide, by decide, e3, e4⟩⟩

/-! ## A taken gate stays taken -/

theorem step_gate_taken (sys sys' : System) (e : Event) (h : Inv sys)
    (h0 : sys.shared.mutex_sem = 0) (hstep : step sys e = some sys') :
    sys'.shared.mutex_sem = 0 ∧ sys'.shared.clients = sys.shared.clients ∧
    ∀ j, sys.phase.getD j .idle = .stuck → sys'.phase.getD j .idle = .stuck := by
  obtain ⟨hlen, hplen, hsem, _, _, _⟩ := h
  have hkeep : ∀ (slot : Nat) (q : Phase), sys.phase.getD slot .idle ≠ .stuck →
      ∀ j, sys.phase.getD j .idle = .stuck → (sys.phase.set slot q).getD j .idle = .stuck := by
    intro slot q hslot j hj
    by_cases hi : slot < sys.phase.length
    · rw [phase_of_set _ _ _ hi]
      by_cases hjs : j = slot
      · subst hjs; exact absurd hj hslot
      · simpa only [hjs, if_false] using hj
    · rwa [List.set_eq_of_length_le (Nat.le_of_not_lt hi)]
  cases e with
  | connect sock pid =>
    simp only [step] at hstep
    rcases handle_client_claim_cases sys.shared sock pid with
      ⟨_, hb⟩ | ⟨hpos, _, _⟩ | ⟨hpos, _, _, _⟩
    · rw [hb] at hstep
      simp only [Option.some.injEq] at hstep
      subst hstep
      exact ⟨h0, rfl, fun _ hj => hj⟩
    · omega
    · omega
  | first slot received =>
    simp only [step] at hstep
    cases hph : sys.phase.getD slot .idle with
    | idle => rw [hph] at hstep; cases hstep
    | looping => rw [hph] at hstep; cases hstep
    | stuck => rw [hph] at hstep; cases hstep
    | registering k =>
      rw [hph] at hstep
      simp only at hstep
      have hns : sys.phase.getD slot .idle ≠ .stuck := by rw [hph]; intro hc; cases hc
      by_cases hfit : recv_fits received = true
      · simp only [hfit, if_true] at hstep
        rcases handle_client_register_cases sys.shared slot k received hlen with
          ho | ho | ⟨_, ho⟩ | ⟨hpos, _, _⟩ | ⟨hpos, _, _, _, _⟩
        · rw [ho] at hstep; cases hstep
        · rw [ho] at hstep
          simp only [System.after, Option.some.injEq] at hstep
          subst hstep
          exact ⟨h0, rfl, hkeep slot _ hns⟩
        · rw [ho] at hstep
          simp only [System.after, Option.some.injEq] at hstep
          subst hstep
          exact ⟨h0, rfl, hkeep slot _ hns⟩
        · omega
        · omega
      · simp only [hfit, Bool.false_eq_true, if_false] at hstep
        cases hstep
  | turn slot received =>
    simp only [step] at hstep
    cases hph : sys.phase.getD slot .idle with
    | idle => rw [hph] at hstep; cases hstep
    | registering k => rw [hph] at hstep; cases hstep
    | stuck => rw [hph] at hstep; cases hstep
    | looping =>
      rw [hph] at hstep
      simp only at hstep
      have hns : sys.phase.getD slot .idle ≠ .stuck := by rw [hph]; intro hc; cases hc
      have hi : slot < MAX_CLIENTS := by
        rw [← hplen]; exact slot_of_phase _ _ (by rw [hph]; intro hc; cases hc)
      by_cases hfit : recv_fits received = true
      · simp only [hfit, if_true] at hstep
        cases received with
        | none =>
          obtain ⟨s', ho, hc, hs⟩ := handle_client_disconnect_cases sys.shared slot hsem
          simp only [handle_client_turn] at hstep
          rcases ho with ho | ho <;>
          · rw [ho] at hstep
            simp only [System.after, Option.some.injEq] at hstep
            subst hstep
            exact ⟨by simp only; omega, hc, hkeep slot _ hns⟩
        | some buffer =>
          simp only [handle_client_turn] at hstep
          rcases handle_client_dispatch_cases sys.shared slot buffer hlen hi hsem with
            ho | ⟨s', ho, hc, hs⟩ | ⟨hpos, _, _, _⟩
          · rw [ho] at hstep; cases hstep
          · rcases ho with ho | ho | ho <;>
            · rw [ho] at hstep
              simp only [System.after, Option.some.injEq] at hstep
              subst hstep
              exact ⟨by simp only; omega, hc, hkeep slot _ hns⟩
          · omega
      · simp only [hfit, Bool.false_eq_true, if_false] at hstep
        cases hstep

theorem run_gate_taken : ∀ (es : List Event) (sys sys' : System), Inv sys →
    sys.shared.mutex_sem = 0 → run sys es = some sys' →
    sys'.shared.mutex_sem = 0 ∧ sys'.shared.clients = sys.shared.clients ∧
    ∀ j, sys.phase.getD j .idle = .stuck → sys'.phase.getD j .idle = .stuck
  | [], sys, sys', _, h0, hrun => by
    simp only [run, Option.some.injEq] at hrun
    subst hrun
    exact ⟨h0, rfl, fun _ hj => hj⟩
  | e :: es, sys, sys', h, h0, hrun => by
    simp only [run] at hrun
    cases hs : step sys e with
    | none => rw [hs] at hrun; cases hrun
    | some sys1 =>
      rw [hs] at hrun
      simp only [Option.some_bind] at hrun
      obtain ⟨a1, a2, a3⟩ := step_gate_taken sys sys1 e h h0 hs
      obtain ⟨b1, b2, b3⟩ := run_gate_taken es sys1 sys' (step_inv sys sys1 e h hs).1 a1 hrun
      exact ⟨b1, b2.trans a2, fun j hj => b3 j (a3 j hj)⟩

/-- Once a handler has received `/exit` with the gate free and its slot
active, whatever happens afterwards the registry stays as it was (the slot
stays active), the gate stays taken and the handler stays in `sem_wait`:
every `sem_post` of the server follows a `sem_wait` of the same process that
returned, so nobody is left to release the gate. -/
theorem exit_never_completes (es : List Event) (sys sys' : System) (i : Nat)
    (h : Inv sys) (hph : sys.phase.getD i .idle = .looping)
    (hgate : sys.shared.mutex_sem = 1) (hact : (sys.shared.client i).is_active = true)
    (hrun : run sys (.turn i (some "/exit".toList) :: es) = some sys') :
    (sys'.shared.client i).is_active = true ∧ sys'.shared.mutex_sem = 0 ∧
    sys'.phase.getD i .idle = .stuck ∧ sys'.shared.clients = sys.shared.clients := by
  have hi : i < sys.phase.length :=
    slot_of_phase _ _ (by rw [hph]; intro hc; cases hc)
  simp only [run] at hrun
  cases hs : step sys (.turn i (some "/exit".toList)) with
  | none => rw [hs] at hrun; cases hrun
  | some sys1 =>
    rw [hs] at hrun
    simp only [Option.some_bind] at hrun
    have hs1 := hs
    simp only [step, hph, handle_client_turn,
      handle_client_exit_blocks sys.shared i hgate hact, System.after] at hs1
    have hfit : recv_fits (some "/exit".toList) = true := by decide
    simp only [hfit, if_true, Option.some.injEq] at hs1
    have hc1 : sys1.shared.clients = sys.shared.clients := by rw [← hs1]
    have hg1 : sys1.shared.mutex_sem = 0 := by rw [← hs1]
    have hp1 : sys1.phase.getD i .idle = .stuck := by
      rw [← hs1]
      show (sys.phase.set i .stuck).getD i .idle = .stuck
      rw [phase_of_set _ _ _ hi]
      simp
    obtain ⟨b1, b2, b3⟩ := run_gate_taken es sys1 sys'
      (step_inv sys sys1 _ h hs).1 hg1 hrun
    refine ⟨?_, b1, b3 i hp1, b2.trans hc1⟩
    have : sys'.shared.client i = sys.shared.client i := by
      simp only [Server.client, b2, hc1]
    rw [this]; exact hact

/-! ## Payloads on the relay channel -/

theorem framesFrom_all (P : MessageData → Prop) (p : Nat → Client → Bool) (message : CStr)
    (h : ∀ socket, P ⟨socket, strncpy message (BUFFER_SIZE - 1)⟩) :
    ∀ (l : List Client) (i : Nat), ∀ m ∈ framesFrom p message l i, P m
  | [], _, m, hm => by simp [framesFrom] at hm
  | c :: cs, i, m, hm => by
    simp only [framesFrom, List.mem_append] at hm
    rcases hm with hm | hm
    · by_cases hc : p i c = true
      · simp only [hc, if_true, List.mem_singleton] at hm
        subst hm
        exact h c.socket
      · simp only [hc, Bool.false_eq_true, if_false, List.not_mem_nil] at hm
    · exact framesFrom_all P p message h cs (i + 1) m hm

theorem emits_nothing (P : MessageData → Prop) (p : List MessageData) (o : Outcome)
    (s' : Server) (ho : o.state? = some s') (hp : s'.message_pipe = p) : Emits P p o :=
  ⟨s', [], ho, by rw [hp, List.append_nil], fun m hm => by cases hm⟩

theorem emits_andThen (P : MessageData → Prop) (p : List MessageData) (o : Outcome)
    (k : Server → Outcome) (ho : Emits P p o)
    (hk : ∀ t, o = .ok t → Emits P t.message_pipe (k t)) :
    Emits P p (o.andThen k) := by
  obtain ⟨s', new, h1, h2, h3⟩ := ho
  cases o with
  | ok t =>
    simp only [Outcome.state?, Option.some.injEq] at h1
    subst h1
    obtain ⟨s'', new', k1, k2, k3⟩ := hk t rfl
    refine ⟨s'', new ++ new', k1, by rw [k2, h2, List.append_assoc], ?_⟩
    intro m hm
    rcases List.mem_append.mp hm with hm | hm
    · exact h3 m hm
    · exact k3 m hm
  | exited t => exact ⟨s', new, h1, h2, h3⟩
  | blocked t => exact ⟨s', new, h1, h2, h3⟩
  | overflow => cases h1

theorem emits_withGate (P : MessageData → Prop) (s : Server) (k : Server → Outcome)
    (hk : Emits P s.message_pipe (k { s with mutex_sem := s.mutex_sem - 1 })) :
    Emits P s.message_pipe (withGate s k) := by
  rcases Nat.eq_zero_or_pos s.mutex_sem with h | h
  · rw [withGate_held s k h]
    exact emits_nothing P _ _ s rfl rfl
  · rw [withGate_free s k h]
    exact hk

theorem emits_broadcast (P : MessageData → Prop) (s : Server) (message room : CStr)
    (exclude_socket : Int) (h : ∀ socket, P ⟨socket, strncpy message (BUFFER_SIZE - 1)⟩) :
    Emits P s.message_pipe (broadcast_to_room s message room exclude_socket) := by
  rw [broadcast_to_room]
  apply emits_withGate
  have hf := forClients_relay
    (fun _ c => c.is_active && c.current_room == room && c.socket != exclude_socket)
    message (by intro i; rfl) MAX_CLIENTS 0 { s with mutex_sem := s.mutex_sem - 1 }
  simp only at hf ⊢
  rw [hf]
  exact ⟨_, _, rfl, rfl, framesFrom_all P _ message h _ 0⟩

theorem ends_with_newline (text : CStr) : (text ++ "\n".toList).getLast? = some '\n' := by
  rw [List.getLast?_append_of_ne_nil _ (by decide)]
  decide

theorem append_three {α : Type} (p a b c : List α) :
    p ++ a ++ b ++ c = p ++ (a ++ b ++ c) := by
  simp only [List.append_assoc]

theorem emits_private_message (P : MessageData → Prop) (s : Server)
    (from_username to_username message : CStr)
    (h1 : ∀ socket, P ⟨socket, snprintf BUFFER_SIZE
      ("[PM from ".toList ++ from_username ++ "]: ".toList ++ message ++ "\n".toList)⟩)
    (h2 : ∀ socket, P ⟨socket, snprintf BUFFER_SIZE
      ("[PM to ".toList ++ to_username ++ "]: ".toList ++ message ++ "\n".toList)⟩)
    (h3 : ∀ socket, P ⟨socket, snprintf BUFFER_SIZE
      ("* Error: User '".toList ++ to_username ++ "' not found\n".toList)⟩) :
    Emits P s.message_pipe
      (send_private_message s from_username to_username message) := by
  rw [send_private_message]
  apply emits_withGate
  simp only [find_client_by_username_send, find_client_by_username_gate]
  cases find_client_by_username s to_username with
  | none =>
    cases find_client_by_username s from_username with
    | none => exact emits_nothing P _ _ _ rfl rfl
    | some a =>
      refine ⟨_, [⟨_, _⟩], rfl, rfl, ?_⟩
      intro m hm
      simp only [List.mem_singleton] at hm
      subst hm
      rw [strncpy_snprintf]
      exact h3 _
  | some b =>
    cases find_client_by_username s from_username with
    | none =>
      refine ⟨_, [⟨_, _⟩], rfl, rfl, ?_⟩
      intro m hm
      simp only [List.mem_singleton] at hm
      subst hm
      rw [strncpy_snprintf]
      exact h1 _
    | some a =>
      refine ⟨_, [⟨_, _⟩, ⟨_, _⟩], rfl, List.append_assoc _ [_] [_], ?_⟩
      intro m hm
      simp only [List.mem_cons, List.mem_singleton, List.not_mem_nil, or_false] at hm
      rcases hm with hm | hm
      · subst hm
        rw [strncpy_snprintf]
        exact h1 _
      · subst hm
        rw [strncpy_snprintf]
        exact h2 _

theorem emits_join_room (P : MessageData → Prop) (s : Server) (i : Nat) (new_room : CStr)
    (hlen : s.clients.length = MAX_CLIENTS) (hi : i < MAX_CLIENTS)
    (h1 : ∀ socket, P ⟨socket, snprintf BUFFER_SIZE
      ("* ".toList ++ (s.client i).username ++ " has left the room\n".toList)⟩)
    (h2 : ∀ socket, P ⟨socket, snprintf BUFFER_SIZE
      ("* You have joined room: ".toList ++ new_room ++ "\n".toList)⟩)
    (h3 : ∀ socket, P ⟨socket, snprintf BUFFER_SIZE
      ("* ".toList ++ (s.client i).username ++ " has joined the room\n".toList)⟩) :
    Emits P s.message_pipe (join_room s i new_room) := by
  rcases Nat.eq_zero_or_pos s.mutex_sem with h | h
  · rw [join_room, withGate_held s _ h]
    exact emits_nothing P _ _ s rfl rfl
  · rw [join_room_free s i new_room hlen h hi]
    refine ⟨_, _, rfl, append_three _ _ _ _, ?_⟩
    intro m hm
    simp only [List.mem_append, List.mem_singleton] at hm
    rcases hm with (hm | hm) | hm
    · exact framesFrom_all P _ _ (fun k => by rw [strncpy_snprintf]; exact h1 k) _ 0 m hm
    · subst hm
      exact h2 _
    · exact framesFrom_all P _ _ (fun k => by rw [strncpy_snprintf]; exact h3 k) _ 0 m hm

theorem emits_disconnect (P : MessageData → Prop) (s : Server) (i : Nat)
    (h1 : ∀ socket, P ⟨socket, snprintf BUFFER_SIZE
      ("* ".toList ++ (s.client i).username ++ " has left the chat\n".toList)⟩) :
    Emits P s.message_pipe (handle_client_disconnect s i) := by
  rw [handle_client_disconnect]
  apply emits_withGate
  simp only [client_gate]
  apply emits_andThen
  · cases hact : (s.client i).is_active
    · simp only [Bool.false_eq_true, if_false]
      exact emits_nothing P _ _ _ rfl rfl
    · simp only [if_true]
      apply emits_andThen
      · exact emits_broadcast P { s with mutex_sem := s.mutex_sem - 1 } _ _ _
          (fun k => by rw [strncpy_snprintf]; exact h1 k)
      · intro t _
        exact emits_nothing P _ _ _ rfl rfl
  · intro t _
    exact emits_nothing P _ _ _ rfl rfl

theorem cutOf_mem (texts : List CStr) (text : CStr) (socket : Int) (h : text ∈ texts) :
    CutOf texts ⟨socket, snprintf BUFFER_SIZE text⟩ :=
  ⟨text, h, rfl⟩

theorem response_texts_newline (s : Server) (i : Nat) (buffer : CStr) :
    ∀ text ∈ response_texts s i buffer, text.getLast? = some '\n' := by
  have hlit : ∀ (x lit : CStr), lit ≠ [] → lit.getLast? = some '\n' →
      (x ++ lit).getLast? = some '\n' := by
    intro x lit h1 h2
    rw [List.getLast?_append_of_ne_nil _ h1, h2]
  intro text ht
  rw [response_texts] at ht
  split at ht
  · split at ht
    · cases ht
    · simp only [List.mem_cons, List.mem_singleton, List.not_mem_nil, or_false] at ht
      rcases ht with rfl | rfl | rfl
      · exact ends_with_newline _
      · exact ends_with_newline _
      · exact hlit _ _ (by decide) (by decide)
  · split at ht
    · simp only [List.mem_cons, List.mem_singleton, List.not_mem_nil, or_false] at ht
      rcases ht with rfl | rfl | rfl
      · exact hlit _ _ (by decide) (by decide)
      · exact ends_with_newline _
      · exact hlit _ _ (by decide) (by decide)
    · split at ht
      · simp only [List.mem_cons, List.mem_singleton, List.not_mem_nil, or_false] at ht
        rcases ht with rfl | rfl
        · decide
        · exact hlit _ _ (by decide) (by decide)
      · simp only [List.mem_singleton] at ht
        subst ht
        exact ends_with_newline _

theorem response_texts_fit (s : Server) (i : Nat) (buffer : CStr)
    (hu : (s.client i).username.length ≤ USERNAME_SIZE - 1) (hb : buffer.length ≤ 979) :
    ∀ text ∈ response_texts s i buffer, text.length ≤ BUFFER_SIZE - 1 := by
  have e1 : "[PM from ".toList.length = 9 := by decide
  have e2 : "]: ".toList.length = 3 := by decide
  have e3 : "\n".toList.length = 1 := by decide
  have e4 : "[PM to ".toList.length = 7 := by decide
  have e5 : "* Error: User '".toList.length = 15 := by decide
  have e6 : "' not found\n".toList.length = 12 := by decide
  have e7 : "* ".toList.length = 2 := by decide
  have e8 : " has left the room\n".toList.length = 19 := by decide
  have e9 : " has joined the room\n".toList.length = 21 := by decide
  have e10 : "* You have joined room: ".toList.length = 24 := by decide
  have e11 : " has left the chat\n".toList.length = 19 := by decide
  have e12 : ": ".toList.length = 2 := by decide
  have e13 : "SERVER_EXIT_ACK\n".toList.length = 16 := by decide
  simp only [USERNAME_SIZE] at hu
  intro text ht
  rw [response_texts] at ht
  split at ht
  · split at ht
    · cases ht
    · simp only [List.mem_cons, List.mem_singleton, List.not_mem_nil, or_false] at ht
      rcases ht with rfl | rfl | rfl <;>
        simp only [List.length_append, List.length_take, List.length_drop, e1, e2, e3, e4,
          e5, e6, BUFFER_SIZE] <;> omega
  · split at ht
    · simp only [List.mem_cons, List.mem_singleton, List.not_mem_nil, or_false] at ht
      rcases ht with rfl | rfl | rfl <;>
        simp only [List.length_append, List.length_take, List.length_drop, e3, e7, e8, e9,
          e10, BUFFER_SIZE, ROOM_NAME_SIZE] <;> omega
    · split at ht
      · simp only [List.mem_cons, List.mem_singleton, List.not_mem_nil, or_false] at ht
        rcases ht with rfl | rfl <;>
          simp only [List.length_append, e7, e11, e13, BUFFER_SIZE] <;> omega
      · simp only [List.mem_singleton] at ht
        subst ht
        simp only [List.length_append, e12, e3, BUFFER_SIZE]
        omega

theorem emits_response (s : Server) (i : Nat) (buffer : CStr)
    (hlen : s.clients.length = MAX_CLIENTS) (hi : i < MAX_CLIENTS)
    (hb : buffer.length ≤ BUFFER_SIZE - 1)
    (hfit : ∀ n, buffer.take 4 = "/pm ".toList → strchr_space (buffer.drop 4) = some n →
      n < USERNAME_SIZE) :
    Emits (CutOf (response_texts s i buffer)) s.message_pipe
      (handle_client_dispatch s i buffer) := by
  rw [handle_client_dispatch]
  by_cases h1 : strncmp_eq buffer "/pm ".toList 4 = true
  · simp only [h1, if_true]
    cases hsp : strchr_space (buffer.drop 4) with
    | none => exact emits_nothing _ _ _ s rfl rfl
    | some n =>
      have hn : n < USERNAME_SIZE := hfit n (by simpa [strncmp_eq] using h1) hsp
      have hn' : ¬ USERNAME_SIZE ≤ n := by omega
      have hT : response_texts s i buffer =
          ["[PM from ".toList ++ (s.client i).username ++ "]: ".toList
              ++ buffer.drop (4 + n + 1) ++ "\n".toList,
            "[PM to ".toList ++ (buffer.drop 4).take n ++ "]: ".toList
              ++ buffer.drop (4 + n + 1) ++ "\n".toList,
            "* Error: User '".toList ++ (buffer.drop 4).take n
              ++ "' not found\n".toList] := by
        simp only [response_texts, h1, if_true, hsp]
      have hmsg : strncpy (buffer.drop (4 + n + 1)) (BUFFER_SIZE - 1) =
          buffer.drop (4 + n + 1) :=
        strncpy_of_le _ _ (by simp only [List.length_drop]; omega)
      have hto : strncpy (buffer.drop 4) n = (buffer.drop 4).take n := rfl
      simp only [hn', if_false, hmsg, hto]
      rw [hT]
      apply emits_private_message
      · intro k; exact cutOf_mem _ _ _ (by simp)
      · intro k; exact cutOf_mem _ _ _ (by simp)
      · intro k; exact cutOf_mem _ _ _ (by simp)
  · simp only [h1, Bool.false_eq_true, if_false]
    by_cases h2 : strncmp_eq buffer "/join ".toList 6 = true
    · have hT : response_texts s i buffer =
          ["* ".toList ++ (s.client i).username ++ " has left the room\n".toList,
            "* You have joined room: ".toList ++ (buffer.drop 6).take (ROOM_NAME_SIZE - 1)
              ++ "\n".toList,
            "* ".toList ++ (s.client i).username ++ " has joined the room\n".toList] := by
        simp only [response_texts, h1, h2, if_true, Bool.false_eq_true, if_false]
      have hroom : strncpy (buffer.drop 6) (ROOM_NAME_SIZE - 1) =
          (buffer.drop 6).take (ROOM_NAME_SIZE - 1) := rfl
      simp only [h2, if_true, hroom]
      rw [hT]
      apply emits_join_room _ _ _ _ hlen hi
      · intro k; exact cutOf_mem _ _ _ (by simp)
      · intro k; exact cutOf_mem _ _ _ (by simp)
      · intro k; exact cutOf_mem _ _ _ (by simp)
    · simp only [h2, Bool.false_eq_true, if_false]
      by_cases h3 : strncmp_eq buffer "/exit".toList 5 = true
      · have hT : response_texts s i buffer =
            ["SERVER_EXIT_ACK\n".toList,
              "* ".toList ++ (s.client i).username ++ " has left the chat\n".toList] := by
          simp only [response_texts, h1, h2, h3, if_true, Bool.false_eq_true, if_false]
        simp only [h3, if_true]
        rw [hT]
        have hd := emits_disconnect
          (CutOf ["SERVER_EXIT_ACK\n".toList,
            "* ".toList ++ (s.client i).username ++ " has left the chat\n".toList])
          (send_message_to_socket s (s.client i).socket "SERVER_EXIT_ACK\n".toList) i
          (by intro k; rw [client_send]; exact cutOf_mem _ _ _ (by simp))
        obtain ⟨s', new, k1, k2, k3⟩ := hd
        refine ⟨s', ⟨(s.client i).socket,
          strncpy "SERVER_EXIT_ACK\n".toList (BUFFER_SIZE - 1)⟩ :: new, k1, ?_, ?_⟩
        · rw [k2]
          simp only [send_message_to_socket, List.append_assoc, List.singleton_append]
        · intro m hm
          rcases List.mem_cons.mp hm with hm | hm
          · subst hm
            exact ⟨_, List.mem_cons_self _ _, rfl⟩
          · exact k3 m hm
      · have hT : response_texts s i buffer =
            [(s.client i).username ++ ": ".toList ++ buffer ++ "\n".toList] := by
          simp only [response_texts, h1, h2, h3, Bool.false_eq_true, if_false]
        simp only [h3, Bool.false_eq_true, if_false]
        rw [hT]
        apply emits_broadcast
        intro k
        rw [strncpy_snprintf]
        exact cutOf_mem _ _ _ (by simp)

/-- C11, as the code has it: for a received line of at most 1023 bytes whose
`/pm` recipient, if any, fits `to_username`, the handler's response leaves a
state whose pipe is the old pipe followed by new frames, and the payload of
each new frame is the first 1023 bytes of one of the texts formatted for
that line (`response_texts`); so it has at most 1023 bytes, and it ends with
a newline whenever that text has at most 1023 bytes.  Every such text ends
with a newline, and with a sender name of at most 31 bytes and a line of at
most 979 bytes every such text has at most 1023 bytes. -/
theorem frames_are_cut_texts (s : Server) (i : Nat) (buffer : CStr)
    (hlen : s.clients.length = MAX_CLIENTS) (hi : i < MAX_CLIENTS)
    (hb : buffer.length ≤ BUFFER_SIZE - 1)
    (hfit : ∀ n, buffer.take 4 = "/pm ".toList → strchr_space (buffer.drop 4) = some n →
      n < USERNAME_SIZE) :
    (∃ s' new, (handle_client_dispatch s i buffer).state? = some s' ∧
      s'.message_pipe = s.message_pipe ++ new ∧
      ∀ m ∈ new, ∃ text ∈ response_texts s i buffer,
        m.message = text.take (BUFFER_SIZE - 1) ∧
        m.message.length ≤ BUFFER_SIZE - 1 ∧
        (text.length ≤ BUFFER_SIZE - 1 → m.message.getLast? = some '\n')) ∧
    (∀ text ∈ response_texts s i buffer, text.getLast? = some '\n' ∧
      ((s.client i).username.length ≤ USERNAME_SIZE - 1 → buffer.length ≤ 979 →
        text.length ≤ BUFFER_SIZE - 1)) := by
  refine ⟨?_, fun text ht => ⟨response_texts_newline s i buffer text ht,
    fun hu h979 => response_texts_fit s i buffer hu h979 text ht⟩⟩
  obtain ⟨s', new, k1, k2, k3⟩ := emits_response s i buffer hlen hi hb hfit
  refine ⟨s', new, k1, k2, ?_⟩
  intro m hm
  obtain ⟨text, ht, he⟩ := k3 m hm
  refine ⟨text, ht, he, ?_, ?_⟩
  · rw [he, List.length_take]
    exact Nat.min_le_left _ _
  · intro hl
    rw [he, List.take_of_length_le hl]
    exact response_texts_newline s i buffer text ht

theorem frames_are_cut_texts_witness :
    longLine.length ≤ BUFFER_SIZE - 1 ∧
    ∃ s' new, (handle_client_dispatch (registryOf [alice, bob]) 0 longLine).state? = some s' ∧
      s'.message_pipe = (registryOf [alice, bob]).message_pipe ++ new ∧
      ∀ m ∈ new, ∃ text ∈ response_texts (registryOf [alice, bob]) 0 longLine,
        m.message = text.take (BUFFER_SIZE - 1) ∧
        m.message.length ≤ BUFFER_SIZE - 1 ∧
        (text.length ≤ BUFFER_SIZE - 1 → m.message.getLast? = some '\n') :=
  ⟨by decide,
    (frames_are_cut_texts (registryOf [alice, bob]) 0 longLine (by decide) (by decide)
      (by decide) (fun n h => absurd h (by decide))).1⟩

/-- C11 fails as stated: alice sends a line of 1023 bytes; the two chat-relay
frames enqueued carry 1023 bytes each and their last byte is the letter `a`
of the line, not a newline. -/
theorem frames_newline_counterexample :
    longLine.length = 1023 ∧
    (handle_client_dispatch (registryOf [alice, bob]) 0 longLine).state?.map
        (fun s => s.message_pipe.map
          (fun m => (m.target_socket, m.message.length, m.message.getLast?))) =
      some [(4, 1023, some 'a'), (5, 1023, some 'a')] := by
  decide

/-! ## The recipient buffer of `/pm` -/

theorem handle_client_dispatch_overflow (s : Server) (i : Nat) (buffer : CStr) (n : Nat)
    (hpm : buffer.take 4 = "/pm ".toList) (hsp : strchr_space (buffer.drop 4) = some n)
    (hn : USERNAME_SIZE ≤ n) :
    handle_client_dispatch s i buffer = .overflow := by
  have h1 : strncmp_eq buffer "/pm ".toList 4 = true := by
    simpa [strncmp_eq] using hpm
  rw [handle_client_dispatch]
  simp only [h1, if_true, hsp, hn]

/-- C12 fails on the code: the line `/pm `, 32 letters `a`, ` hi` has 39
bytes, begins with `/pm ` and has a space after position 4; `strchr` finds
that space at offset 32, so `username_len` is 32 and
`to_username[username_len] = 0` writes one byte past the 32-byte buffer. -/
theorem pm_recipient_overflows :
    longRecipient.length = 39 ∧
    longRecipient.take 4 = "/pm ".toList ∧
    strchr_space (longRecipient.drop 4) = some 32 ∧
    ¬ (32 ≤ USERNAME_SIZE - 1) ∧
    handle_client_dispatch (registryOf [alice, bob]) 0 longRecipient = .overflow := by
  decide

/-! ## Slot reuse -/

theorem aliceLeft_unreachable (es : List Event) (sys : System)
    (hrun : run boot es = some sys) : sys.shared.clients ≠ aliceLeft.clients := by
  obtain ⟨⟨_, _, _, hI1, _, _⟩, _⟩ := run_inv es boot sys inv_boot.1 hrun
  intro h
  have h0 := hI1 0
  simp only [Server.client, h] at h0
  exact absurd (h0 (by decide)) (by decide)

end ChatRoomC
